import Mathlib

/-!
# Online-retail catalog: ETL normalizer, bulk loader and product API

A shallow embedding of `etl.js` (the CSV `on('data')` handler and the
transactional `on('end')` loader) and of the product handlers of `server.js`,
followed by the properties proved about them.

JavaScript built-ins the program calls (`parseFloat`, `parseInt`, `Number`
conversion, `Date` parsing, `Number` printing) are not part of the repository;
they are collected in the structure `Builtins` and every general theorem holds
for all of them.  `Sample.node` is one concrete interpretation, used to run the
program on explicit inputs.
-/

set_option autoImplicit false

namespace Retail

deriving instance DecidableEq for Except

/-! ## JavaScript values -/

/-- A JavaScript Number as far as the program observes it: `fin q` stands for the
finite Number denoted by the rational `q` (rounding to binary64 is not modelled,
the program performs no arithmetic); negative zero is identified with zero. -/
inductive JSNum where
  | nan
  | posInf
  | negInf
  | fin (q : ℚ)
  deriving DecidableEq

namespace JSNum

/-- ToBoolean on a Number: `NaN` and zero are falsy. -/
def truthy : JSNum → Bool
  | nan => false
  | fin q => decide (q ≠ 0)
  | _ => true

/-- The expression `x || 0` for a Number `x`. -/
def orZero (x : JSNum) : JSNum :=
  if x.truthy then x else fin 0

/-- Unary minus. -/
def neg : JSNum → JSNum
  | nan => nan
  | posInf => negInf
  | negInf => posInf
  | fin q => fin (-q)

end JSNum

/-- A value found in a parsed JSON request body (or `undefined` for a missing
property).  An Object or Array is represented by the two strings the program can
observe of it: its ToPrimitive string (`prim`) and the text the database driver
sends for it (`param`). -/
inductive JVal where
  | undefined
  | null
  | bool (b : Bool)
  | num (x : JSNum)
  | str (s : String)
  | obj (prim param : String)
  deriving DecidableEq

/-- Built-in functions of the JavaScript runtime used by the program. -/
structure Builtins where
  /-- The global `parseFloat` applied to a string. -/
  parseFloat : String → JSNum
  /-- The call `parseInt(s, 10)`. -/
  parseInt10 : String → JSNum
  /-- StringToNumber, the conversion behind `Number(s)` and `isNaN(s)`. -/
  stringToNumber : String → JSNum
  /-- Number::toString (radix 10). -/
  numberToString : JSNum → String
  /-- The time value (milliseconds since the epoch, UTC) of `new Date(s)`;
  `none` is the time value `NaN` of an Invalid Date. -/
  dateParse : String → Option Int
  /-- Date-only ISO strings are read as UTC, so `new Date('1970-01-01')` is the epoch. -/
  dateParse_epoch : dateParse "1970-01-01" = some 0

/-- A `Date` object, by its time value; `none` is Invalid Date. -/
abbrev JSDate := Option Int

namespace JVal

/-- ToBoolean. -/
def truthy : JVal → Bool
  | undefined => false
  | null => false
  | bool b => b
  | num x => x.truthy
  | str s => decide (s ≠ "")
  | obj _ _ => true

/-- ToString. -/
def toStr (env : Builtins) : JVal → String
  | undefined => "undefined"
  | null => "null"
  | bool b => if b then "true" else "false"
  | num x => env.numberToString x
  | str s => s
  | obj prim _ => prim

/-- ToNumber. -/
def toNumber (env : Builtins) : JVal → JSNum
  | undefined => JSNum.nan
  | null => JSNum.fin 0
  | bool b => if b then JSNum.fin 1 else JSNum.fin 0
  | num x => x
  | str s => env.stringToNumber s
  | obj prim _ => env.stringToNumber prim

end JVal

/-- The global `isNaN(v)`: ToNumber, then test for `NaN`. -/
def isNaN (env : Builtins) (v : JVal) : Bool :=
  decide (v.toNumber env = JSNum.nan)

/-- The global `parseFloat(v)`: ToString, then parse. -/
def parseFloat (env : Builtins) (v : JVal) : JSNum :=
  env.parseFloat (v.toStr env)

/-- The call `parseInt(v, 10)`. -/
def parseInt (env : Builtins) (v : JVal) : JSNum :=
  env.parseInt10 (v.toStr env)

/-- The constructor call `new Date(v)` for a string or `undefined` argument. -/
def newDate (env : Builtins) : JVal → JSDate
  | JVal.str s => env.dateParse s
  | _ => none

/-! ## The JavaScript `Map` -/

/-- A `Map` with string keys: its entries in insertion order. -/
def JSMap (V : Type) : Type := List (String × V)

namespace JSMap

variable {V : Type}

instance [DecidableEq V] : DecidableEq (JSMap V) :=
  inferInstanceAs (DecidableEq (List (String × V)))

/-- The empty map, `new Map()`. -/
def empty : JSMap V := ([] : List (String × V))

/-- The method `get`; `none` is `undefined`. -/
def get : JSMap V → String → Option V
  | [], _ => none
  | (k, v) :: rest, key => if k = key then some v else get rest key

/-- The method `has`. -/
def has (m : JSMap V) (key : String) : Bool :=
  (m.get key).isSome

/-- The method `set`: an existing key keeps its position, a new key goes last. -/
def set : JSMap V → String → V → JSMap V
  | [], key, val => [(key, val)]
  | (k, v) :: rest, key, val =>
    if k = key then (k, val) :: rest else (k, v) :: set rest key val

/-- The iteration `entries()`, in insertion order. -/
def entries (m : JSMap V) : List (String × V) := m

/-- The iteration `values()`, in insertion order. -/
def values (m : JSMap V) : List V :=
  List.map Prod.snd m

/-- The iteration `keys()`, in insertion order. -/
def keys (m : JSMap V) : List String :=
  List.map Prod.fst m

end JSMap

/-! ## `etl.js`: the record normalizer -/

/-- One record produced by `csv-parse` with `columns: true`: every column is a
string, or `undefined` when the header does not name it. -/
structure Row where
  InvoiceNo : Option String
  StockCode : Option String
  Description : Option String
  Quantity : Option String
  InvoiceDate : Option String
  UnitPrice : Option String
  CustomerID : Option String
  Country : Option String
  deriving DecidableEq

/-- A CSV cell as a JavaScript value: a string, or `undefined`. -/
def cell : Option String → JVal
  | some s => JVal.str s
  | none => JVal.undefined

/-- The value stored in `customers`. -/
structure Customer where
  id : String
  country : Option String
  deriving DecidableEq

/-- The value stored in `products`. -/
structure Product where
  stock_code : String
  description : Option String
  unit_price : JSNum
  deriving DecidableEq

/-- An element of an invoice's `items` array. -/
structure LineItem where
  product_id : String
  quantity : JSNum
  unit_price : JSNum
  deriving DecidableEq

/-- The value stored in `invoices`. -/
structure Invoice where
  invoice_no : String
  customer_id : String
  invoice_date : JSDate
  items : List LineItem
  deriving DecidableEq

/-- The three module-level maps of `etl.js`. -/
structure Maps where
  customers : JSMap Customer
  products : JSMap Product
  invoices : JSMap Invoice
  deriving DecidableEq

/-- The maps as the module creates them. -/
def Maps.empty : Maps :=
  { customers := JSMap.empty, products := JSMap.empty, invoices := JSMap.empty }

/-- Source function `isValidDate`: `!isNaN(new Date(dateString).getTime())`. -/
def isValidDate (env : Builtins) (dateString : Option String) : Bool :=
  (newDate env (cell dateString)).isSome

/-- A map key: the string a CSV cell holds once the drop rule has let it pass. -/
def keyOf : Option String → String
  | some s => s
  | none => ""

/-- The drop test `!InvoiceNo || !CustomerID || !StockCode`. -/
def dropped (row : Row) : Bool :=
  !(cell row.InvoiceNo).truthy || !(cell row.CustomerID).truthy || !(cell row.StockCode).truthy

/-- The object pushed onto `items` for a row. -/
def lineItem (env : Builtins) (row : Row) : LineItem :=
  { product_id := keyOf row.StockCode
    quantity := (parseInt env (cell row.Quantity)).orZero
    unit_price := (parseFloat env (cell row.UnitPrice)).orZero }

/-- The date computed for a row:
`isValidDate(InvoiceDate) ? new Date(InvoiceDate) : new Date('1970-01-01')`. -/
def rowDate (env : Builtins) (row : Row) : JSDate :=
  if isValidDate env row.InvoiceDate then newDate env (cell row.InvoiceDate)
  else newDate env (JVal.str "1970-01-01")

/-- The `on('data')` handler.  `Except.error` is a thrown exception: reading
`.items` of `undefined` is the only statement of the handler that can throw. -/
def onData (env : Builtins) (m : Maps) (row : Row) : Except String Maps :=
  if dropped row then Except.ok m
  else
    let InvoiceNo := keyOf row.InvoiceNo
    let CustomerID := keyOf row.CustomerID
    let StockCode := keyOf row.StockCode
    let customers :=
      if !m.customers.has CustomerID then
        m.customers.set CustomerID { id := CustomerID, country := row.Country }
      else m.customers
    let products :=
      if !m.products.has StockCode then
        m.products.set StockCode
          { stock_code := StockCode, description := row.Description
            unit_price := (parseFloat env (cell row.UnitPrice)).orZero }
      else m.products
    let invoiceDate := rowDate env row
    let invoices :=
      if !m.invoices.has InvoiceNo then
        m.invoices.set InvoiceNo
          { invoice_no := InvoiceNo, customer_id := CustomerID
            invoice_date := invoiceDate, items := [] }
      else m.invoices
    match invoices.get InvoiceNo with
    | none => Except.error "TypeError: Cannot read properties of undefined (reading items)"
    | some inv =>
      Except.ok
        { customers := customers
          products := products
          invoices := invoices.set InvoiceNo
            { inv with items := inv.items ++ [lineItem env row] } }

/-- The stream of `data` events of one run, starting from the given maps. -/
def processFrom (env : Builtins) : Maps → List Row → Except String Maps
  | m, [] => Except.ok m
  | m, row :: rest =>
    match onData env m row with
    | Except.ok m1 => processFrom env m1 rest
    | Except.error e => Except.error e

/-- One ETL run over a CSV file: the maps when the `end` event fires. -/
def processRows (env : Builtins) (rows : List Row) : Except String Maps :=
  processFrom env Maps.empty rows

/-! ## The catalog store

The relational database is an external collaborator.  Its tables are modelled as
row lists with the uniqueness constraints the statements of the program rely on:
`customers.id`, `products.stock_code` and the pair `(invoice_no, customer_id)`.
A text column holds a string or `NULL` (`none`); the numeric column `unit_price`
holds the Number it is given (`NaN` included, as the numeric types of PostgreSQL
admit it); the `items` column holds the serialized item array, represented by the
array it serializes. -/

/-- The three tables. -/
structure Tables where
  customers : List Customer
  products : List Product
  invoices : List Invoice
  deriving DecidableEq

/-- The SQL statements of `etl.js` and `server.js`, with their positional parameters. -/
inductive Stmt where
  /-- `INSERT INTO customers (id, country) VALUES ($1, $2) ON CONFLICT DO NOTHING` -/
  | insertCustomer (id : String) (country : Option String)
  /-- `INSERT INTO products (...) VALUES ($1, $2, $3) ON CONFLICT DO NOTHING` -/
  | insertProductIfAbsent (stock_code : String) (description : Option String)
      (unit_price : JSNum)
  /-- `INSERT INTO invoices (...) VALUES ($1, $2, $3, $4) ON CONFLICT (invoice_no,
  customer_id) DO UPDATE SET invoice_date = EXCLUDED.invoice_date, items = EXCLUDED.items` -/
  | upsertInvoice (invoice_no customer_id : String) (invoice_date : JSDate)
      (items : List LineItem)
  /-- `SELECT * FROM products` -/
  | selectProducts
  /-- `SELECT * FROM products WHERE stock_code = $1` -/
  | selectProduct (stock_code : String)
  /-- `INSERT INTO products (stock_code, description, unit_price) VALUES ($1, $2, $3)` -/
  | insertProduct (stock_code description : Option String) (unit_price : JSNum)
  /-- `UPDATE products SET description = $1, unit_price = $2 WHERE stock_code = $3` -/
  | updateProduct (description : Option String) (unit_price : JSNum) (stock_code : String)
  /-- `DELETE FROM products WHERE stock_code = $1` -/
  | deleteProduct (stock_code : String)
  deriving DecidableEq

/-- What `query` resolves to: the rows returned and the number of rows affected. -/
structure QueryResult where
  rows : List Product
  rowCount : Nat
  deriving DecidableEq

/-- The invoice upsert on one table: overwrite date and items of the row with the
same `(invoice_no, customer_id)`, or append a new row. -/
def upsertInvoiceRow (inv : Invoice) : List Invoice → List Invoice
  | [] => [inv]
  | r :: rest =>
    if r.invoice_no = inv.invoice_no ∧ r.customer_id = inv.customer_id then
      { r with invoice_date := inv.invoice_date, items := inv.items } :: rest
    else r :: upsertInvoiceRow inv rest

/-- The effect of one statement on the tables; `Except.error` is a rejected statement. -/
def execStmt (st : Stmt) (t : Tables) : Except String (QueryResult × Tables) :=
  match st with
  | Stmt.insertCustomer id country =>
    if t.customers.any (fun c => decide (c.id = id)) then
      Except.ok ({ rows := [], rowCount := 0 }, t)
    else
      Except.ok ({ rows := [], rowCount := 1 },
        { t with customers := t.customers ++ [{ id := id, country := country }] })
  | Stmt.insertProductIfAbsent stock_code description unit_price =>
    if t.products.any (fun p => decide (p.stock_code = stock_code)) then
      Except.ok ({ rows := [], rowCount := 0 }, t)
    else
      Except.ok ({ rows := [], rowCount := 1 },
        { t with products := t.products ++
            [{ stock_code := stock_code, description := description
               unit_price := unit_price }] })
  | Stmt.upsertInvoice invoice_no customer_id invoice_date items =>
    let inv : Invoice :=
      { invoice_no := invoice_no, customer_id := customer_id
        invoice_date := invoice_date, items := items }
    Except.ok ({ rows := [], rowCount := 1 },
      { t with invoices := upsertInvoiceRow inv t.invoices })
  | Stmt.selectProducts =>
    Except.ok ({ rows := t.products, rowCount := t.products.length }, t)
  | Stmt.selectProduct stock_code =>
    let found := t.products.filter (fun p => decide (p.stock_code = stock_code))
    Except.ok ({ rows := found, rowCount := found.length }, t)
  | Stmt.insertProduct none _ _ =>
    Except.error "null value in column stock_code violates not-null constraint"
  | Stmt.insertProduct (some stock_code) description unit_price =>
    if t.products.any (fun p => decide (p.stock_code = stock_code)) then
      Except.error "duplicate key value violates unique constraint"
    else
      Except.ok ({ rows := [], rowCount := 1 },
        { t with products := t.products ++
            [{ stock_code := stock_code, description := description
               unit_price := unit_price }] })
  | Stmt.updateProduct description unit_price stock_code =>
    Except.ok
      ({ rows := []
         rowCount := (t.products.filter (fun p => decide (p.stock_code = stock_code))).length },
       { t with products := t.products.map (fun p =>
           if p.stock_code = stock_code then
             { p with description := description, unit_price := unit_price }
           else p) })
  | Stmt.deleteProduct stock_code =>
    Except.ok
      ({ rows := []
         rowCount := (t.products.filter (fun p => decide (p.stock_code = stock_code))).length },
       { t with products := t.products.filter (fun p => !decide (p.stock_code = stock_code)) })

/-! ## `etl.js`: the bulk loader -/

/-- What a client sends on its connection: transaction control or a statement. -/
inductive Command where
  | begin
  | commit
  | rollback
  | stmt (st : Stmt)
  deriving DecidableEq

/-- The transaction status of a connection. -/
inductive TxStatus where
  | idle
  | active (working : Tables)
  | aborted
  deriving DecidableEq

/-- A checked-out pool client together with the store behind it: `committed` are
the tables every connection sees, `issued` logs each command sent with whether it
succeeded, `released` records `client.release()`. -/
structure Session where
  committed : Tables
  tx : TxStatus
  issued : List (Command × Bool)
  released : Bool
  deriving DecidableEq

/-- The session `pool.connect()` resolves to. -/
def connect (db : Tables) : Session :=
  { committed := db, tx := TxStatus.idle, issued := [], released := false }

/-- The method `client.release()`. -/
def Session.release (s : Session) : Session :=
  { s with released := true }

/-- The effect of a command that the server accepts. -/
def Session.accept (s : Session) (c : Command) : Except String QueryResult × Session :=
  let done : QueryResult := { rows := [], rowCount := 0 }
  match c, s.tx with
  | Command.begin, TxStatus.idle =>
    (Except.ok done, { s with tx := TxStatus.active s.committed, issued := s.issued ++ [(c, true)] })
  | Command.begin, _ =>
    (Except.ok done, { s with issued := s.issued ++ [(c, true)] })
  | Command.commit, TxStatus.active working =>
    (Except.ok done,
      { s with committed := working, tx := TxStatus.idle, issued := s.issued ++ [(c, true)] })
  | Command.commit, _ =>
    (Except.ok done, { s with tx := TxStatus.idle, issued := s.issued ++ [(c, true)] })
  | Command.rollback, _ =>
    (Except.ok done, { s with tx := TxStatus.idle, issued := s.issued ++ [(c, true)] })
  | Command.stmt st, TxStatus.idle =>
    match execStmt st s.committed with
    | Except.ok (r, t) =>
      (Except.ok r, { s with committed := t, issued := s.issued ++ [(c, true)] })
    | Except.error e => (Except.error e, { s with issued := s.issued ++ [(c, false)] })
  | Command.stmt st, TxStatus.active working =>
    match execStmt st working with
    | Except.ok (r, t) =>
      (Except.ok r, { s with tx := TxStatus.active t, issued := s.issued ++ [(c, true)] })
    | Except.error e =>
      (Except.error e, { s with tx := TxStatus.aborted, issued := s.issued ++ [(c, false)] })
  | Command.stmt _, TxStatus.aborted =>
    (Except.error "current transaction is aborted", { s with issued := s.issued ++ [(c, false)] })

/-- The call `await client.query(...)`.  The oracle `fails` names the positions
(counted over the commands sent on this connection) at which the query is
rejected for a reason outside the tables, such as a lost connection; a command
rejected inside a transaction leaves the transaction aborted. -/
def Session.query (fails : Nat → Bool) (s : Session) (c : Command) :
    Except String QueryResult × Session :=
  if fails s.issued.length then
    (Except.error "query failed",
      { s with
        tx := (match s.tx with
          | TxStatus.idle => TxStatus.idle
          | _ => TxStatus.aborted)
        issued := s.issued ++ [(c, false)] })
  else s.accept c

/-- A piece of the `async` body: it runs on a session and either completes or throws. -/
abbrev Step := Session → Except String Unit × Session

/-- One `await client.query(c)` whose result is not used. -/
def awaitQuery (fails : Nat → Bool) (c : Command) : Step := fun s =>
  match s.query fails c with
  | (Except.ok _, s1) => (Except.ok (), s1)
  | (Except.error e, s1) => (Except.error e, s1)

/-- Sequencing of two pieces: the second runs only if the first did not throw. -/
def Step.andThen (a b : Step) : Step := fun s =>
  match a s with
  | (Except.ok _, s1) => b s1
  | (Except.error e, s1) => (Except.error e, s1)

/-- A `for (const x of xs)` loop whose body is a piece. -/
def forOf {α : Type} (body : α → Step) : List α → Step
  | [] => fun s => (Except.ok (), s)
  | x :: rest => (body x).andThen (forOf body rest)

/-- The body of the `try` block of the `on('end')` handler. -/
def tryBlock (fails : Nat → Bool) (m : Maps) : Step :=
  (awaitQuery fails Command.begin).andThen <|
  (forOf (fun (customer : Customer) =>
      awaitQuery fails (Command.stmt (Stmt.insertCustomer customer.id customer.country)))
    m.customers.values).andThen <|
  (forOf (fun (product : Product) =>
      awaitQuery fails (Command.stmt
        (Stmt.insertProductIfAbsent product.stock_code product.description product.unit_price)))
    m.products.values).andThen <|
  (forOf (fun (invoice : Invoice) =>
      awaitQuery fails (Command.stmt
        (Stmt.upsertInvoice invoice.invoice_no invoice.customer_id invoice.invoice_date
          invoice.items)))
    m.invoices.values).andThen <|
  awaitQuery fails Command.commit

/-- How the `on('end')` handler finishes. -/
inductive LoadOutcome where
  /-- The `try` block ran to its end: `Data inserted successfully!`. -/
  | inserted
  /-- The `catch` block ran `ROLLBACK` and logged the error. -/
  | rolledBack (err : String)
  /-- The `ROLLBACK` in the `catch` block was itself rejected; the handler rejects. -/
  | rejected (err : String)
  deriving DecidableEq

/-- The `on('end')` handler, from the resolved `pool.connect()` on:
`try` the block, `catch` with `ROLLBACK`, `finally` release the client. -/
def onEnd (fails : Nat → Bool) (m : Maps) (client : Session) : LoadOutcome × Session :=
  match tryBlock fails m client with
  | (Except.ok _, s1) => (LoadOutcome.inserted, s1.release)
  | (Except.error err, s1) =>
    match s1.query fails Command.rollback with
    | (Except.ok _, s2) => (LoadOutcome.rolledBack err, s2.release)
    | (Except.error err2, s2) => (LoadOutcome.rejected err2, s2.release)

/-- One whole run of `etl.js` against a store: parse every row, then load. -/
def runEtl (env : Builtins) (fails : Nat → Bool) (rows : List Row) (db : Tables) :
    Except String (LoadOutcome × Session) :=
  match processRows env rows with
  | Except.ok m => Except.ok (onEnd fails m (connect db))
  | Except.error e => Except.error e

/-! ## `server.js`: the product handlers -/

/-- The properties the handlers read from `req.body`; a missing property is `undefined`. -/
structure ReqBody where
  stock_code : JVal
  description : JVal
  unit_price : JVal
  deriving DecidableEq

/-- The JSON document sent back. -/
inductive ResBody where
  | error (msg : String)
  | message (msg : String)
  | product (row : Product)
  | products (rows : List Product)
  deriving DecidableEq

/-- One handled request: the response, the store afterwards and the statements
the handler sent to the store. -/
structure Handled where
  status : Nat
  body : ResBody
  store : Tables
  issued : List Stmt
  deriving DecidableEq

/-- The text the driver sends for a parameter bound to a text column; `none` is `NULL`. -/
def textParam (env : Builtins) : JVal → Option String
  | JVal.undefined => none
  | JVal.null => none
  | JVal.obj _ param => some param
  | v => some (v.toStr env)

/-- The call `await pool.query(...)`: `fault` says that the store rejects the query
for a reason outside the tables (no connection, for instance). -/
def poolQuery (fault : Bool) (st : Stmt) (t : Tables) : Except String (QueryResult × Tables) :=
  if fault then Except.error "connection failure" else execStmt st t

/-- Handler `app.get('/products')`. -/
def getProducts (fault : Bool) (db : Tables) : Handled :=
  match poolQuery fault Stmt.selectProducts db with
  | Except.ok (result, db1) =>
    { status := 200, body := ResBody.products result.rows, store := db1
      issued := [Stmt.selectProducts] }
  | Except.error _ =>
    { status := 500, body := ResBody.error "Internal Server Error", store := db
      issued := [Stmt.selectProducts] }

/-- Handler `app.get('/products/:stock_code')`. -/
def getProductByStockCode (fault : Bool) (db : Tables) (stock_code : String) : Handled :=
  match poolQuery fault (Stmt.selectProduct stock_code) db with
  | Except.ok (result, db1) =>
    match result.rows with
    | [] =>
      { status := 404, body := ResBody.error "Product not found", store := db1
        issued := [Stmt.selectProduct stock_code] }
    | row :: _ =>
      { status := 200, body := ResBody.product row, store := db1
        issued := [Stmt.selectProduct stock_code] }
  | Except.error _ =>
    { status := 500, body := ResBody.error "Internal Server Error", store := db
      issued := [Stmt.selectProduct stock_code] }

/-- Handler `app.post('/products')`. -/
def postProducts (env : Builtins) (fault : Bool) (db : Tables) (body : ReqBody) : Handled :=
  if !body.stock_code.truthy || !body.description.truthy || isNaN env body.unit_price then
    { status := 400
      body := ResBody.error
        "Invalid product data. Ensure stock_code, description, and numeric unit_price are provided."
      store := db, issued := [] }
  else
    let st := Stmt.insertProduct (textParam env body.stock_code) (textParam env body.description)
      (parseFloat env body.unit_price)
    match poolQuery fault st db with
    | Except.ok (_, db1) =>
      { status := 201, body := ResBody.message "Product added successfully!", store := db1
        issued := [st] }
    | Except.error _ =>
      { status := 500, body := ResBody.error "Internal Server Error", store := db
        issued := [st] }

/-- Handler `app.put('/products/:stock_code')`. -/
def putProduct (env : Builtins) (fault : Bool) (db : Tables) (stock_code : String)
    (body : ReqBody) : Handled :=
  if !body.description.truthy || isNaN env body.unit_price then
    { status := 400
      body := ResBody.error
        "Invalid product data. Ensure description and numeric unit_price are provided."
      store := db, issued := [] }
  else
    let st := Stmt.updateProduct (textParam env body.description)
      (parseFloat env body.unit_price) stock_code
    match poolQuery fault st db with
    | Except.ok (result, db1) =>
      if result.rowCount = 0 then
        { status := 404, body := ResBody.error "Product not found", store := db1
          issued := [st] }
      else
        { status := 200, body := ResBody.message "Product updated successfully!", store := db1
          issued := [st] }
    | Except.error _ =>
      { status := 500, body := ResBody.error "Internal Server Error", store := db
        issued := [st] }

/-- Handler `app.delete('/products/:stock_code')`. -/
def deleteProduct (fault : Bool) (db : Tables) (stock_code : String) : Handled :=
  match poolQuery fault (Stmt.deleteProduct stock_code) db with
  | Except.ok (result, db1) =>
    if result.rowCount = 0 then
      { status := 404, body := ResBody.error "Product not found", store := db1
        issued := [Stmt.deleteProduct stock_code] }
    else
      { status := 200, body := ResBody.message "Product deleted successfully!", store := db1
        issued := [Stmt.deleteProduct stock_code] }
  | Except.error _ =>
    { status := 500, body := ResBody.error "Internal Server Error", store := db
      issued := [Stmt.deleteProduct stock_code] }

/-! ## A concrete interpretation of the built-ins

`Sample.node` interprets the built-ins on the part of their domain the examples
below use: decimal literals (with fraction, exponent and `Infinity`), binary,
octal and hexadecimal integer literals, and the date-only form `YYYY-MM-DD` of
the ECMAScript date-time string format (other date formats, whose recognition is
implementation-defined, are rejected).  Numbers are printed in positional
notation. -/

namespace Sample

/-- StrWhiteSpaceChar: white space and line terminators. -/
def isStrWhiteSpace (c : Char) : Bool :=
  [0x09, 0x0A, 0x0B, 0x0C, 0x0D, 0x20, 0xA0, 0x1680, 0x2028, 0x2029, 0x202F, 0x205F,
    0x3000, 0xFEFF].contains c.toNat || (0x2000 ≤ c.toNat && c.toNat ≤ 0x200A)

/-- The value of a digit character in a radix up to 16, if it is one. -/
def digitOf (radix : Nat) (c : Char) : Option Nat :=
  let v :=
    if '0' ≤ c ∧ c ≤ '9' then c.toNat - '0'.toNat
    else if 'a' ≤ c ∧ c ≤ 'f' then c.toNat - 'a'.toNat + 10
    else if 'A' ≤ c ∧ c ≤ 'F' then c.toNat - 'A'.toNat + 10
    else 16
  if v < radix then some v else none

/-- The number written by a list of digits of the radix. -/
def digitsVal (radix : Nat) (cs : List Char) : Nat :=
  cs.foldl (fun acc c => radix * acc + (digitOf radix c).getD 0) 0

/-- Decimal digit test. -/
def isDec (c : Char) : Bool :=
  (digitOf 10 c).isSome

/-- An optional sign: whether it is a minus, and the rest. -/
def readSign : List Char → Bool × List Char
  | '+' :: rest => (false, rest)
  | '-' :: rest => (true, rest)
  | cs => (false, cs)

/-- An optional ExponentPart: its value and the rest. -/
def readExponent : List Char → Int × List Char
  | c :: rest =>
    if c = 'e' ∨ c = 'E' then
      let signed := readSign rest
      let ds := signed.2.takeWhile isDec
      if ds = [] then (0, c :: rest)
      else ((if signed.1 then -(digitsVal 10 ds : Int) else digitsVal 10 ds),
        signed.2.dropWhile isDec)
    else (0, c :: rest)
  | [] => (0, [])

/-- The rational `n · 10^e`. -/
def scale10 (n : Nat) (e : Int) : ℚ :=
  if 0 ≤ e then (n : ℚ) * ((10 ^ e.toNat : Nat) : ℚ) else (n : ℚ) / ((10 ^ (-e).toNat : Nat) : ℚ)

/-- The longest prefix that is a StrUnsignedDecimalLiteral: its value and the rest. -/
def readUnsignedDecimal (cs : List Char) : Option (JSNum × List Char) :=
  if "Infinity".toList.isPrefixOf cs then some (JSNum.posInf, cs.drop 8)
  else
    let ip := cs.takeWhile isDec
    let afterInt := cs.dropWhile isDec
    let fp := match afterInt with
      | '.' :: r => r.takeWhile isDec
      | _ => []
    let afterFrac := match afterInt with
      | '.' :: r => if ip = [] ∧ r.takeWhile isDec = [] then afterInt else r.dropWhile isDec
      | _ => afterInt
    if ip = [] ∧ fp = [] then none
    else
      let ex := readExponent afterFrac
      some (JSNum.fin (scale10 (digitsVal 10 (ip ++ fp)) (ex.1 - fp.length)), ex.2)

/-- The longest prefix that is a StrDecimalLiteral (a sign may lead). -/
def readDecimal (cs : List Char) : Option (JSNum × List Char) :=
  let signed := readSign cs
  match readUnsignedDecimal signed.2 with
  | some (v, rest) => some (if signed.1 then v.neg else v, rest)
  | none => none

/-- The global `parseFloat` on a string. -/
def parseFloat (s : String) : JSNum :=
  match readDecimal (s.toList.dropWhile isStrWhiteSpace) with
  | some (v, _) => v
  | none => JSNum.nan

/-- The call `parseInt(s, 10)`. -/
def parseInt10 (s : String) : JSNum :=
  let signed := readSign (s.toList.dropWhile isStrWhiteSpace)
  let ds := signed.2.takeWhile isDec
  if ds = [] then JSNum.nan
  else JSNum.fin (if signed.1 then -(digitsVal 10 ds : ℚ) else digitsVal 10 ds)

/-- A NonDecimalIntegerLiteral body: all characters are digits of the radix. -/
def readRadix (radix : Nat) (ds : List Char) : JSNum :=
  if ds ≠ [] ∧ ds.all (fun c => (digitOf radix c).isSome) then
    JSNum.fin (digitsVal radix ds)
  else JSNum.nan

/-- StringToNumber. -/
def stringToNumber (s : String) : JSNum :=
  let cs := ((s.toList.dropWhile isStrWhiteSpace).reverse.dropWhile isStrWhiteSpace).reverse
  let decimal : JSNum :=
    match readDecimal cs with
    | some (v, []) => v
    | _ => JSNum.nan
  match cs with
  | [] => JSNum.fin 0
  | '0' :: x :: ds =>
    if x = 'x' ∨ x = 'X' then readRadix 16 ds
    else if x = 'o' ∨ x = 'O' then readRadix 8 ds
    else if x = 'b' ∨ x = 'B' then readRadix 2 ds
    else decimal
  | _ => decimal

/-- The decimal digits of the fraction `r / d`, at most `fuel` of them. -/
def fracDigits (d : Nat) : Nat → Nat → List Char
  | 0, _ => []
  | fuel + 1, r =>
    if r = 0 then [] else Nat.digitChar (r * 10 / d) :: fracDigits d fuel (r * 10 % d)

/-- Number::toString, in positional notation. -/
def numberToString : JSNum → String
  | JSNum.nan => "NaN"
  | JSNum.posInf => "Infinity"
  | JSNum.negInf => "-Infinity"
  | JSNum.fin q =>
    let n := q.num.natAbs
    let frac := fracDigits q.den 20 (n % q.den)
    String.mk ((if q.num < 0 then ['-'] else []) ++ (Nat.repr (n / q.den)).toList ++
      (if frac = [] then [] else '.' :: frac))

/-- Days from 1970-01-01 to the given civil date (proleptic Gregorian calendar). -/
def daysFromCivil (y m d : Int) : Int :=
  let y1 := if m ≤ 2 then y - 1 else y
  let mp := if m ≤ 2 then m + 9 else m - 3
  365 * y1 + y1 / 4 - y1 / 100 + y1 / 400 + (153 * mp + 2) / 5 + d - 1 - 719468

/-- The number of days of a month. -/
def daysInMonth (y m : Nat) : Nat :=
  if m = 2 then (if y % 4 = 0 ∧ (y % 100 ≠ 0 ∨ y % 400 = 0) then 29 else 28)
  else if m = 4 ∨ m = 6 ∨ m = 9 ∨ m = 11 then 30
  else 31

/-- The time value of `new Date(s)` for the date-only form `YYYY-MM-DD` (read as UTC). -/
def dateParse (s : String) : Option Int :=
  match s.toList with
  | [y1, y2, y3, y4, '-', m1, m2, '-', d1, d2] =>
    if [y1, y2, y3, y4, m1, m2, d1, d2].all isDec then
      let y := digitsVal 10 [y1, y2, y3, y4]
      let m := digitsVal 10 [m1, m2]
      let d := digitsVal 10 [d1, d2]
      if 1 ≤ m ∧ m ≤ 12 ∧ 1 ≤ d ∧ d ≤ daysInMonth y m then
        some (daysFromCivil y m d * 86400000)
      else none
    else none
  | _ => none

/-- The sample runtime. -/
def node : Builtins :=
  { parseFloat := parseFloat
    parseInt10 := parseInt10
    stringToNumber := stringToNumber
    numberToString := numberToString
    dateParse := dateParse
    dateParse_epoch := by decide }

end Sample

/-! ## Specification vocabulary -/

/-- The rows of an invoice number that pass the drop rule. -/
def keptFor (n : String) (row : Row) : Bool :=
  !dropped row && decide (keyOf row.InvoiceNo = n)

/-- The rows of a stock code that pass the drop rule. -/
def keptStock (sc : String) (row : Row) : Bool :=
  !dropped row && decide (keyOf row.StockCode = sc)

/-- The product object built for a row. -/
def productOf (env : Builtins) (row : Row) : Product :=
  { stock_code := keyOf row.StockCode, description := row.Description
    unit_price := (parseFloat env (cell row.UnitPrice)).orZero }

/-- The row of the `invoices` table with the given identity, if any. -/
def findInvoice (t : Tables) (invoice_no customer_id : String) : Option Invoice :=
  t.invoices.find? (fun r => decide (r.invoice_no = invoice_no ∧ r.customer_id = customer_id))

/-- The row of the `products` table with the given stock code, if any. -/
def findProduct (t : Tables) (stock_code : String) : Option Product :=
  t.products.find? (fun p => decide (p.stock_code = stock_code))

/-- The invoice record of a row once the row is processed: the record already in
the map with the row's item appended, or a fresh record holding that item. -/
def invoiceAfter (env : Builtins) (invoices : JSMap Invoice) (row : Row) : Invoice :=
  match invoices.get (keyOf row.InvoiceNo) with
  | some inv => { inv with items := inv.items ++ [lineItem env row] }
  | none =>
    { invoice_no := keyOf row.InvoiceNo, customer_id := keyOf row.CustomerID
      invoice_date := rowDate env row, items := [lineItem env row] }

/-- The maps after one `data` event, as a total function. -/
def applyRow (env : Builtins) (m : Maps) (row : Row) : Maps :=
  if dropped row then m
  else
    { customers :=
        if m.customers.has (keyOf row.CustomerID) then m.customers
        else m.customers.set (keyOf row.CustomerID)
          { id := keyOf row.CustomerID, country := row.Country }
      products :=
        if m.products.has (keyOf row.StockCode) then m.products
        else m.products.set (keyOf row.StockCode) (productOf env row)
      invoices := m.invoices.set (keyOf row.InvoiceNo) (invoiceAfter env m.invoices row) }

/-- Every entry of the three maps is filed under its own natural key, and an
invoice number is filed once. -/
def Maps.Keyed (m : Maps) : Prop :=
  m.invoices.keys.Nodup ∧
  (∀ e ∈ m.invoices.entries, e.2.invoice_no = e.1) ∧
  (∀ e ∈ m.products.entries, e.2.stock_code = e.1) ∧
  (∀ e ∈ m.customers.entries, e.2.id = e.1)

/-- Every invoice names a known customer and every line item a known product. -/
def Maps.Referential (m : Maps) : Prop :=
  ∀ inv ∈ m.invoices.values,
    inv.customer_id ∈ m.customers.keys ∧ ∀ item ∈ inv.items, item.product_id ∈ m.products.keys

/-- The tables after a list of statements, a rejected statement changing nothing. -/
def execAll (sts : List Stmt) (t : Tables) : Tables :=
  sts.foldl (fun acc st =>
    match execStmt st acc with
    | Except.ok (_, t1) => t1
    | Except.error _ => acc) t

/-- The data statements of the load, in the order the `try` block sends them. -/
def loadStmts (m : Maps) : List Stmt :=
  m.customers.values.map (fun c => Stmt.insertCustomer c.id c.country) ++
  m.products.values.map (fun p =>
    Stmt.insertProductIfAbsent p.stock_code p.description p.unit_price) ++
  m.invoices.values.map (fun i =>
    Stmt.upsertInvoice i.invoice_no i.customer_id i.invoice_date i.items)

/-- A session in the middle of an unbroken load transaction over the store `db`:
nothing committed yet, the transaction open, every command so far accepted. -/
def Session.InLoad (db : Tables) (s : Session) : Prop :=
  s.committed = db ∧ (∃ w, s.tx = TxStatus.active w) ∧ ∀ e ∈ s.issued, e.2 = true

/-- What a piece of the load leaves behind: an unbroken transaction when it
completes, an untouched store and a logged rejection when it throws. -/
def Session.LoadPost (db : Tables) (r : Except String Unit × Session) : Prop :=
  match r.1 with
  | Except.ok _ => r.2.InLoad db
  | Except.error _ => r.2.committed = db ∧ ∃ e ∈ r.2.issued, e.2 = false

/-- What the whole `try` block leaves behind: a log without rejection when it
completes, an untouched store and a logged rejection when it throws. -/
def Session.TryPost (db : Tables) (r : Except String Unit × Session) : Prop :=
  match r.1 with
  | Except.ok _ => ∀ e ∈ r.2.issued, e.2 = true
  | Except.error _ => r.2.committed = db ∧ ∃ e ∈ r.2.issued, e.2 = false

/-- An oracle under which the store rejects nothing. -/
def noFailure : Nat → Bool := fun _ => false

/-! ## Example inputs -/

namespace Example

/-- A line of invoice 536365 for customer 17850. -/
def heartRow : Row :=
  { InvoiceNo := some "536365", StockCode := some "85123A"
    Description := some "WHITE HANGING HEART T-LIGHT HOLDER", Quantity := some "6"
    InvoiceDate := some "2010-12-01", UnitPrice := some "2.55"
    CustomerID := some "17850", Country := some "United Kingdom" }

/-- A second line of invoice 536365 whose CustomerID cell is empty. -/
def lanternNoCustomer : Row :=
  { InvoiceNo := some "536365", StockCode := some "71053"
    Description := some "WHITE METAL LANTERN", Quantity := some "6"
    InvoiceDate := some "2010-12-01", UnitPrice := some "3.39"
    CustomerID := some "", Country := some "United Kingdom" }

/-- A line with stock code 85123A whose InvoiceNo cell is empty. -/
def heartNoInvoice : Row :=
  { InvoiceNo := some "", StockCode := some "85123A"
    Description := some "CREAM HANGING HEART T-LIGHT HOLDER", Quantity := some "1"
    InvoiceDate := some "2010-11-30", UnitPrice := some "9.99"
    CustomerID := some "17850", Country := some "United Kingdom" }

/-- A second line of invoice 536365 whose date does not parse. -/
def lanternBadDate : Row :=
  { InvoiceNo := some "536365", StockCode := some "71053"
    Description := some "WHITE METAL LANTERN", Quantity := some "6"
    InvoiceDate := some "not-a-date", UnitPrice := some "3.39"
    CustomerID := some "17850", Country := some "United Kingdom" }

/-- A second line of invoice 536365 naming another customer. -/
def lanternOtherCustomer : Row :=
  { InvoiceNo := some "536365", StockCode := some "71053"
    Description := some "WHITE METAL LANTERN", Quantity := some "6"
    InvoiceDate := some "2010-12-01", UnitPrice := some "3.39"
    CustomerID := some "13047", Country := some "France" }

/-- A line whose StockCode column is missing. -/
def noStockCode : Row :=
  { InvoiceNo := some "536366", StockCode := none
    Description := some "HAND WARMER UNION JACK", Quantity := some "6"
    InvoiceDate := some "2010-12-01", UnitPrice := some "1.85"
    CustomerID := some "17850", Country := some "United Kingdom" }

/-- A line of invoice 536366 for customer 17850. -/
def warmerRow : Row :=
  { InvoiceNo := some "536366", StockCode := some "22633"
    Description := some "HAND WARMER UNION JACK", Quantity := some "6"
    InvoiceDate := some "2010-12-01", UnitPrice := some "1.85"
    CustomerID := some "17850", Country := some "United Kingdom" }

/-- The item of `heartRow`. -/
def heartItem : LineItem :=
  { product_id := "85123A", quantity := JSNum.fin 6, unit_price := JSNum.fin (51 / 20) }

/-- The item of the lantern rows. -/
def lanternItem : LineItem :=
  { product_id := "71053", quantity := JSNum.fin 6, unit_price := JSNum.fin (339 / 100) }

/-- A store with no rows. -/
def emptyStore : Tables :=
  { customers := [], products := [], invoices := [] }

/-- A store holding the product A1. -/
def widgetStore : Tables :=
  { customers := []
    products := [{ stock_code := "A1", description := some "Widget"
                   unit_price := JSNum.fin (999 / 100) }]
    invoices := [] }

/-- The maps after the single row `heartRow`. -/
def heartMaps : Maps :=
  { customers := [("17850", { id := "17850", country := some "United Kingdom" })]
    products := [("85123A", { stock_code := "85123A"
                              description := some "WHITE HANGING HEART T-LIGHT HOLDER"
                              unit_price := JSNum.fin (51 / 20) })]
    invoices := [("536365", { invoice_no := "536365", customer_id := "17850"
                              invoice_date := some 1291161600000, items := [heartItem] })] }

/-- The body the bundled client sends when the price field is left empty. -/
def widgetEmptyPrice : ReqBody :=
  { stock_code := JVal.str "A1", description := JVal.str "Widget", unit_price := JVal.str "" }

/-- A body whose unit_price is `null`. -/
def widgetNullPrice : ReqBody :=
  { stock_code := JVal.str "A1", description := JVal.str "Widget", unit_price := JVal.null }

/-- An update body whose price field is left empty. -/
def updateEmptyPrice : ReqBody :=
  { stock_code := JVal.undefined, description := JVal.str "Widget v2"
    unit_price := JVal.str "" }

/-- A well-formed body. -/
def widgetBody : ReqBody :=
  { stock_code := JVal.str "A1", description := JVal.str "Widget"
    unit_price := JVal.str "9.99" }

/-- A well-formed update body. -/
def updateBody : ReqBody :=
  { stock_code := JVal.undefined, description := JVal.str "Widget v2"
    unit_price := JVal.str "12.50" }

/-- An oracle under which the third command sent on the connection is rejected. -/
def thirdFails : Nat → Bool := fun k => decide (k = 2)

end Example

/-! ## Properties of the `Map` model -/

namespace JSMap

variable {V : Type}

theorem get_set_self (m : JSMap V) (k : String) (v : V) : (m.set k v).get k = some v := by
  induction m with
  | nil => simp [set, get]
  | cons e rest ih =>
    obtain ⟨k1, v1⟩ := e
    by_cases h : k1 = k
    · simp [set, get, h]
    · simp [set, get, h, ih]

theorem get_set_ne (m : JSMap V) {k k2 : String} (v : V) (h : k ≠ k2) :
    (m.set k v).get k2 = m.get k2 := by
  induction m with
  | nil => simp [set, get, h]
  | cons e rest ih =>
    obtain ⟨k1, v1⟩ := e
    by_cases h1 : k1 = k
    · subst h1
      simp [set, get, h]
    · by_cases h2 : k1 = k2
      · subst h2
        simp [set, get, h1]
      · simp [set, get, h1, h2, ih]

theorem set_set (m : JSMap V) (k : String) (v w : V) : (m.set k v).set k w = m.set k w := by
  induction m with
  | nil => simp [set]
  | cons e rest ih =>
    obtain ⟨k1, v1⟩ := e
    by_cases h : k1 = k
    · simp [set, h]
    · simp [set, h, ih]

theorem has_eq_true_iff (m : JSMap V) (k : String) : m.has k = true ↔ ∃ v, m.get k = some v := by
  simp [has, Option.isSome_iff_exists]

theorem get_of_mem_keys (m : JSMap V) (k : String) : k ∈ m.keys ↔ ∃ v, m.get k = some v := by
  induction m with
  | nil => simp [keys, get]
  | cons e rest ih =>
    obtain ⟨k1, v1⟩ := e
    by_cases h : k1 = k
    · simp [keys, get, h]
    · have ih1 : k ∈ List.map Prod.fst rest ↔ ∃ v, get rest k = some v := ih
      have h2 : ¬ k = k1 := fun e => h e.symm
      simp [keys, get, h, h2, ih1]

theorem mem_set {m : JSMap V} {k : String} {v : V} {e : String × V}
    (h : e ∈ (m.set k v).entries) : e = (k, v) ∨ e ∈ m.entries := by
  induction m with
  | nil =>
    left
    simpa [set, entries] using h
  | cons e1 rest ih =>
    obtain ⟨k1, v1⟩ := e1
    by_cases h1 : k1 = k
    · subst h1
      simp only [set, if_true, entries, List.mem_cons] at h
      rcases h with h | h
      · left; exact h
      · right
        simp only [entries, List.mem_cons]
        right; exact h
    · simp only [set, h1, if_false, entries, List.mem_cons] at h
      rcases h with h | h
      · right
        simp only [entries, List.mem_cons]
        left; exact h
      · rcases ih h with h2 | h2
        · left; exact h2
        · right
          simp only [entries, List.mem_cons]
          right; exact h2

theorem keys_set (m : JSMap V) (k : String) (v : V) :
    (m.set k v).keys = if k ∈ m.keys then m.keys else m.keys ++ [k] := by
  induction m with
  | nil => simp [set, keys]
  | cons e1 rest ih =>
    obtain ⟨k1, v1⟩ := e1
    have ih1 : List.map Prod.fst (set rest k v) =
        if k ∈ List.map Prod.fst rest then List.map Prod.fst rest
        else List.map Prod.fst rest ++ [k] := ih
    by_cases h1 : k1 = k
    · subst h1
      simp [set, keys]
    · have h2 : ¬ k = k1 := fun e => h1 e.symm
      by_cases h3 : k ∈ List.map Prod.fst rest
      · simp only [set, h1, if_false, keys, List.map_cons, ih1, h3, if_true, List.mem_cons,
          or_true]
      · simp only [set, h1, if_false, keys, List.map_cons, ih1, h3, List.mem_cons, h2,
          or_self, List.cons_append]

theorem nodup_keys_set {m : JSMap V} (k : String) (v : V) (h : m.keys.Nodup) :
    (m.set k v).keys.Nodup := by
  rw [keys_set]
  by_cases h1 : k ∈ m.keys
  · simpa [h1] using h
  · simp only [h1, if_false]
    exact List.Nodup.append h (List.nodup_singleton k) (by simpa using h1)

theorem mem_of_get {m : JSMap V} {k : String} {v : V} (h : m.get k = some v) :
    (k, v) ∈ m.entries := by
  induction m with
  | nil => simp [get] at h
  | cons e1 rest ih =>
    obtain ⟨k1, v1⟩ := e1
    by_cases h1 : k1 = k
    · subst h1
      simp only [get, if_true, Option.some.injEq] at h
      subst h
      simp [entries]
    · simp only [get, h1, if_false] at h
      have := ih h
      simp only [entries, List.mem_cons]
      right; exact this

theorem get_of_mem {m : JSMap V} {k : String} {v : V} (hnd : m.keys.Nodup)
    (h : (k, v) ∈ m.entries) : m.get k = some v := by
  induction m with
  | nil => simp [entries] at h
  | cons e1 rest ih =>
    obtain ⟨k1, v1⟩ := e1
    have hnd1 : k1 ∉ List.map Prod.fst rest ∧ (List.map Prod.fst rest).Nodup := by
      simpa [keys] using hnd
    simp only [entries, List.mem_cons, Prod.mk.injEq] at h
    rcases h with ⟨hk, hv⟩ | h
    · subst hk; subst hv
      simp [get]
    · have hk : k ∈ List.map Prod.fst rest := List.mem_map.mpr ⟨(k, v), h, rfl⟩
      have h1 : ¬ k1 = k := fun e => hnd1.1 (e ▸ hk)
      simp only [get, h1, if_false]
      exact ih hnd1.2 h

theorem mem_keys_set (m : JSMap V) (k k2 : String) (v : V) :
    k2 ∈ (m.set k v).keys ↔ k2 = k ∨ k2 ∈ m.keys := by
  rw [keys_set]
  by_cases h : k ∈ m.keys
  · simp only [h, if_true]
    constructor
    · intro h2; right; exact h2
    · rintro (h2 | h2)
      · subst h2; exact h
      · exact h2
  · simp only [h, if_false, List.mem_append, List.mem_singleton]
    tauto

theorem mem_keys_of_has {m : JSMap V} {k : String} (h : m.has k = true) : k ∈ m.keys := by
  rw [get_of_mem_keys]
  exact (has_eq_true_iff m k).mp h

theorem mem_values_iff {m : JSMap V} {v : V} : v ∈ m.values ↔ ∃ k, (k, v) ∈ m.entries := by
  simp [values, entries]

end JSMap

/-! ## Properties of the normalizer -/

theorem onData_eq_applyRow (env : Builtins) (m : Maps) (row : Row) :
    onData env m row = Except.ok (applyRow env m row) := by
  unfold onData applyRow
  by_cases hd : dropped row = true
  · simp [hd]
  · simp only [hd, if_false, Bool.false_eq_true]
    cases hget : m.invoices.get (keyOf row.InvoiceNo) with
    | none =>
      have hhas : m.invoices.has (keyOf row.InvoiceNo) = false := by simp [JSMap.has, hget]
      cases hc : m.customers.has (keyOf row.CustomerID) <;>
        cases hp : m.products.has (keyOf row.StockCode) <;>
        simp [hhas, JSMap.get_set_self, JSMap.set_set, invoiceAfter, hget, productOf]
    | some inv =>
      have hhas : m.invoices.has (keyOf row.InvoiceNo) = true := by simp [JSMap.has, hget]
      cases hc : m.customers.has (keyOf row.CustomerID) <;>
        cases hp : m.products.has (keyOf row.StockCode) <;>
        simp [hhas, invoiceAfter, hget, productOf]

theorem processFrom_eq_foldl (env : Builtins) (rows : List Row) (m : Maps) :
    processFrom env m rows = Except.ok (rows.foldl (applyRow env) m) := by
  induction rows generalizing m with
  | nil => rfl
  | cons row rest ih => simp [processFrom, onData_eq_applyRow, ih]

theorem processRows_eq_foldl (env : Builtins) (rows : List Row) :
    processRows env rows = Except.ok (rows.foldl (applyRow env) Maps.empty) :=
  processFrom_eq_foldl env rows Maps.empty

theorem invoices_get_applyRow (env : Builtins) (m : Maps) (row : Row) (n : String) :
    (applyRow env m row).invoices.get n =
      if keptFor n row = true then some (invoiceAfter env m.invoices row)
      else m.invoices.get n := by
  unfold applyRow keptFor
  by_cases hd : dropped row = true
  · simp [hd]
  · by_cases hn : keyOf row.InvoiceNo = n
    · simp [hd, hn, JSMap.get_set_self]
    · simp [hd, hn, JSMap.get_set_ne]

theorem invoices_get_foldl (env : Builtins) (rows : List Row) (m : Maps) (n : String) :
    (rows.foldl (applyRow env) m).invoices.get n =
      match m.invoices.get n with
      | some inv =>
        some { inv with
          items := inv.items ++ (rows.filter (keptFor n)).map (lineItem env) }
      | none =>
        (rows.find? (keptFor n)).map (fun r =>
          { invoice_no := n, customer_id := keyOf r.CustomerID, invoice_date := rowDate env r
            items := (rows.filter (keptFor n)).map (lineItem env) }) := by
  induction rows generalizing m with
  | nil =>
    cases h : m.invoices.get n <;> simp [h]
  | cons row rest ih =>
    rw [List.foldl_cons, ih (applyRow env m row), invoices_get_applyRow]
    by_cases hk : keptFor n row = true
    · have hn : keyOf row.InvoiceNo = n := by
        simp only [keptFor, Bool.and_eq_true, decide_eq_true_eq] at hk
        exact hk.2
      cases h : m.invoices.get n with
      | none => simp [hk, invoiceAfter, hn, h]
      | some inv => simp [hk, invoiceAfter, hn, h]
    · cases h : m.invoices.get n <;> simp [hk, h]

/-- The invoice record found under a number after a run, in closed form. -/
theorem invoices_get_processRows (env : Builtins) (rows : List Row) (n : String) :
    (rows.foldl (applyRow env) Maps.empty).invoices.get n =
      (rows.find? (keptFor n)).map (fun r =>
        { invoice_no := n, customer_id := keyOf r.CustomerID, invoice_date := rowDate env r
          items := (rows.filter (keptFor n)).map (lineItem env) }) := by
  rw [invoices_get_foldl]
  rfl

theorem products_get_applyRow (env : Builtins) (m : Maps) (row : Row) (sc : String) :
    (applyRow env m row).products.get sc =
      match m.products.get sc with
      | some p => some p
      | none => if keptStock sc row = true then some (productOf env row) else none := by
  unfold applyRow keptStock
  by_cases hd : dropped row = true
  · cases h : m.products.get sc <;> simp [hd, h]
  · by_cases hn : keyOf row.StockCode = sc
    · subst hn
      cases h : m.products.get (keyOf row.StockCode) with
      | none => simp [hd, JSMap.has, h, JSMap.get_set_self]
      | some p => simp [hd, JSMap.has, h]
    · cases hh : m.products.has (keyOf row.StockCode) <;>
        cases h : m.products.get sc <;> simp [hd, hn, hh, h, JSMap.get_set_ne]

theorem products_get_foldl (env : Builtins) (rows : List Row) (m : Maps) (sc : String) :
    (rows.foldl (applyRow env) m).products.get sc =
      match m.products.get sc with
      | some p => some p
      | none => (rows.find? (keptStock sc)).map (productOf env) := by
  induction rows generalizing m with
  | nil => cases h : m.products.get sc <;> simp [h]
  | cons row rest ih =>
    rw [List.foldl_cons, ih (applyRow env m row), products_get_applyRow]
    cases h : m.products.get sc with
    | none =>
      by_cases hk : keptStock sc row = true
      · simp [hk]
      · simp [hk]
    | some p => simp

/-- The product found under a stock code after a run, in closed form. -/
theorem products_get_processRows (env : Builtins) (rows : List Row) (sc : String) :
    (rows.foldl (applyRow env) Maps.empty).products.get sc =
      (rows.find? (keptStock sc)).map (productOf env) := by
  rw [products_get_foldl]
  rfl

theorem keyed_empty : Maps.empty.Keyed := by
  simp [Maps.Keyed, Maps.empty, JSMap.empty, JSMap.keys, JSMap.entries]

theorem invoiceAfter_invoice_no (env : Builtins) (m : Maps) (row : Row) (h : m.Keyed) :
    (invoiceAfter env m.invoices row).invoice_no = keyOf row.InvoiceNo := by
  unfold invoiceAfter
  cases hget : m.invoices.get (keyOf row.InvoiceNo) with
  | none => rfl
  | some inv => exact h.2.1 _ (JSMap.mem_of_get hget)

theorem keyed_applyRow (env : Builtins) (m : Maps) (row : Row) (h : m.Keyed) :
    (applyRow env m row).Keyed := by
  unfold applyRow
  by_cases hd : dropped row = true
  · simpa [hd] using h
  · simp only [hd, if_false, Bool.false_eq_true]
    refine ⟨JSMap.nodup_keys_set _ _ h.1, ?_, ?_, ?_⟩
    · intro e he
      rcases JSMap.mem_set he with h1 | h1
      · subst h1
        exact invoiceAfter_invoice_no env m row h
      · exact h.2.1 e h1
    · intro e he
      by_cases hh : m.products.has (keyOf row.StockCode) = true
      · simp only [hh, if_true] at he
        exact h.2.2.1 e he
      · simp only [hh, if_false, Bool.false_eq_true] at he
        rcases JSMap.mem_set he with h1 | h1
        · subst h1; rfl
        · exact h.2.2.1 e h1
    · intro e he
      by_cases hh : m.customers.has (keyOf row.CustomerID) = true
      · simp only [hh, if_true] at he
        exact h.2.2.2 e he
      · simp only [hh, if_false, Bool.false_eq_true] at he
        rcases JSMap.mem_set he with h1 | h1
        · subst h1; rfl
        · exact h.2.2.2 e h1

theorem keyed_foldl (env : Builtins) (rows : List Row) (m : Maps) (h : m.Keyed) :
    (rows.foldl (applyRow env) m).Keyed := by
  induction rows generalizing m with
  | nil => exact h
  | cons row rest ih => exact ih _ (keyed_applyRow env m row h)

theorem referential_applyRow (env : Builtins) (m : Maps) (row : Row) (h : m.Referential) :
    (applyRow env m row).Referential := by
  unfold applyRow
  by_cases hd : dropped row = true
  · simpa [hd] using h
  · simp only [hd, if_false, Bool.false_eq_true]
    have hc : ∀ k, k ∈ m.customers.keys ∨ k = keyOf row.CustomerID →
        k ∈ (if m.customers.has (keyOf row.CustomerID) = true then m.customers
          else m.customers.set (keyOf row.CustomerID)
            { id := keyOf row.CustomerID, country := row.Country }).keys := by
      intro k hk
      by_cases hh : m.customers.has (keyOf row.CustomerID) = true
      · simp only [hh, if_true]
        rcases hk with hk | hk
        · exact hk
        · subst hk; exact JSMap.mem_keys_of_has hh
      · simp only [hh, if_false, Bool.false_eq_true, JSMap.mem_keys_set]
        tauto
    have hp : ∀ k, k ∈ m.products.keys ∨ k = keyOf row.StockCode →
        k ∈ (if m.products.has (keyOf row.StockCode) = true then m.products
          else m.products.set (keyOf row.StockCode) (productOf env row)).keys := by
      intro k hk
      by_cases hh : m.products.has (keyOf row.StockCode) = true
      · simp only [hh, if_true]
        rcases hk with hk | hk
        · exact hk
        · subst hk; exact JSMap.mem_keys_of_has hh
      · simp only [hh, if_false, Bool.false_eq_true, JSMap.mem_keys_set]
        tauto
    intro inv hinv
    obtain ⟨k, hk⟩ := JSMap.mem_values_iff.mp hinv
    rcases JSMap.mem_set hk with h1 | h1
    · have hinv2 : inv = invoiceAfter env m.invoices row := congrArg Prod.snd h1
      subst hinv2
      unfold invoiceAfter
      cases hget : m.invoices.get (keyOf row.InvoiceNo) with
      | none =>
        refine ⟨hc _ (Or.inr rfl), ?_⟩
        intro item hitem
        simp only [List.mem_singleton] at hitem
        subst hitem
        exact hp _ (Or.inr rfl)
      | some old =>
        have hold := h old (JSMap.mem_values_iff.mpr ⟨_, JSMap.mem_of_get hget⟩)
        refine ⟨hc _ (Or.inl hold.1), ?_⟩
        intro item hitem
        simp only [List.mem_append, List.mem_singleton] at hitem
        rcases hitem with hitem | hitem
        · exact hp _ (Or.inl (hold.2 item hitem))
        · subst hitem
          exact hp _ (Or.inr rfl)
    · have hold := h inv (JSMap.mem_values_iff.mpr ⟨_, h1⟩)
      refine ⟨hc _ (Or.inl hold.1), ?_⟩
      intro item hitem
      exact hp _ (Or.inl (hold.2 item hitem))

theorem referential_foldl (env : Builtins) (rows : List Row) (m : Maps) (h : m.Referential) :
    (rows.foldl (applyRow env) m).Referential := by
  induction rows generalizing m with
  | nil => exact h
  | cons row rest ih => exact ih _ (referential_applyRow env m row h)

theorem referential_empty : Maps.empty.Referential := by
  intro inv hinv
  simp [Maps.empty, JSMap.empty, JSMap.values] at hinv

/-! ## Properties of the bulk loader -/

theorem awaitQuery_stmt_post (fails : Nat → Bool) (db : Tables) (st : Stmt) (s : Session)
    (h : s.InLoad db) : Session.LoadPost db (awaitQuery fails (Command.stmt st) s) := by
  obtain ⟨hc, ⟨w, hw⟩, hall⟩ := h
  unfold Session.LoadPost awaitQuery Session.query
  by_cases hf : fails s.issued.length = true
  · simp [hf, hc]
  · simp only [hf, if_false, Bool.false_eq_true]
    unfold Session.accept
    simp only [hw]
    cases hex : execStmt st w with
    | error e => simp [hc]
    | ok r =>
      simp only [Session.InLoad, hc, true_and]
      refine ⟨⟨r.2, rfl⟩, ?_⟩
      intro e he
      simp only [List.mem_append, List.mem_singleton] at he
      rcases he with he | he
      · exact hall e he
      · subst he; rfl

theorem andThen_post (db : Tables) (a b : Step)
    (ha : ∀ s, s.InLoad db → Session.LoadPost db (a s))
    (hb : ∀ s, s.InLoad db → Session.LoadPost db (b s)) :
    ∀ s, s.InLoad db → Session.LoadPost db (a.andThen b s) := by
  intro s hs
  have h1 := ha s hs
  unfold Step.andThen
  unfold Session.LoadPost at h1
  cases hr : a s with
  | mk r s1 =>
    rw [hr] at h1
    cases r with
    | ok u => exact hb s1 h1
    | error e => exact h1

theorem forOf_post {α : Type} (db : Tables) (body : α → Step)
    (hbody : ∀ x s, s.InLoad db → Session.LoadPost db (body x s)) (xs : List α) :
    ∀ s, s.InLoad db → Session.LoadPost db (forOf body xs s) := by
  induction xs with
  | nil =>
    intro s hs
    exact hs
  | cons x rest ih => exact andThen_post db _ _ (hbody x) ih

theorem andThen_tryPost (db : Tables) (a b : Step)
    (ha : ∀ s, s.InLoad db → Session.LoadPost db (a s))
    (hb : ∀ s, s.InLoad db → Session.TryPost db (b s)) :
    ∀ s, s.InLoad db → Session.TryPost db (a.andThen b s) := by
  intro s hs
  have h1 := ha s hs
  unfold Step.andThen
  unfold Session.LoadPost at h1
  cases hr : a s with
  | mk r s1 =>
    rw [hr] at h1
    cases r with
    | ok u => exact hb s1 h1
    | error e => exact h1

theorem commit_tryPost (fails : Nat → Bool) (db : Tables) (s : Session) (h : s.InLoad db) :
    Session.TryPost db (awaitQuery fails Command.commit s) := by
  obtain ⟨hc, ⟨w, hw⟩, hall⟩ := h
  unfold Session.TryPost awaitQuery Session.query
  by_cases hf : fails s.issued.length = true
  · simp [hf, hc]
  · simp only [hf, if_false, Bool.false_eq_true]
    unfold Session.accept
    simp only [hw]
    intro e he
    simp only [List.mem_append, List.mem_singleton] at he
    rcases he with he | he
    · exact hall e he
    · subst he; rfl

theorem tryBlock_tryPost (fails : Nat → Bool) (m : Maps) (db : Tables) :
    Session.TryPost db (tryBlock fails m (connect db)) := by
  have hloops : ∀ s, s.InLoad db → Session.TryPost db
      (((forOf (fun (customer : Customer) =>
          awaitQuery fails (Command.stmt (Stmt.insertCustomer customer.id customer.country)))
        m.customers.values).andThen <|
      (forOf (fun (product : Product) =>
          awaitQuery fails (Command.stmt
            (Stmt.insertProductIfAbsent product.stock_code product.description
              product.unit_price)))
        m.products.values).andThen <|
      (forOf (fun (invoice : Invoice) =>
          awaitQuery fails (Command.stmt
            (Stmt.upsertInvoice invoice.invoice_no invoice.customer_id invoice.invoice_date
              invoice.items)))
        m.invoices.values).andThen <|
      awaitQuery fails Command.commit) s) := by
    refine andThen_tryPost db _ _ (forOf_post db _ ?_ _) ?_
    · intro x s hs
      exact awaitQuery_stmt_post fails db _ s hs
    refine andThen_tryPost db _ _ (forOf_post db _ ?_ _) ?_
    · intro x s hs
      exact awaitQuery_stmt_post fails db _ s hs
    refine andThen_tryPost db _ _ (forOf_post db _ ?_ _) ?_
    · intro x s hs
      exact awaitQuery_stmt_post fails db _ s hs
    exact commit_tryPost fails db
  unfold tryBlock
  show Session.TryPost db (Step.andThen (awaitQuery fails Command.begin) _ (connect db))
  unfold Step.andThen
  by_cases hf : fails 0 = true
  · simp [awaitQuery, Session.query, connect, hf, Session.TryPost]
  · have hb : awaitQuery fails Command.begin (connect db) =
        (Except.ok (), { committed := db, tx := TxStatus.active db
                         issued := [(Command.begin, true)], released := false }) := by
      simp [awaitQuery, Session.query, connect, hf, Session.accept]
    rw [hb]
    apply hloops
    refine ⟨rfl, ⟨db, rfl⟩, ?_⟩
    intro e he
    simp only [List.mem_singleton] at he
    subst he; rfl

theorem query_rollback (fails : Nat → Bool) (s : Session) :
    (s.query fails Command.rollback).2.committed = s.committed ∧
    (∃ ok, (s.query fails Command.rollback).2.issued = s.issued ++ [(Command.rollback, ok)]) ∧
    (∀ r, (s.query fails Command.rollback).1 = Except.ok r →
      (s.query fails Command.rollback).2.tx = TxStatus.idle) := by
  unfold Session.query
  by_cases hf : fails s.issued.length = true
  · simp [hf]
  · simp [hf, Session.accept]

/-- C9: the `on('end')` handler always releases the client; if any command of the
load is rejected, nothing is committed (the tables are those before the load), the
handler does not report success, `ROLLBACK` is the last command it sends and, when
that `ROLLBACK` is accepted, no transaction stays open; if no command is rejected
the handler reports success. -/
theorem onEnd_atomic (fails : Nat → Bool) (m : Maps) (db : Tables) :
    (onEnd fails m (connect db)).2.released = true ∧
    ((∃ e ∈ (onEnd fails m (connect db)).2.issued, e.2 = false) →
      (onEnd fails m (connect db)).2.committed = db ∧
      (onEnd fails m (connect db)).1 ≠ LoadOutcome.inserted ∧
      (∃ ok, (onEnd fails m (connect db)).2.issued.getLast? = some (Command.rollback, ok)) ∧
      (∀ err, (onEnd fails m (connect db)).1 = LoadOutcome.rolledBack err →
        (onEnd fails m (connect db)).2.tx = TxStatus.idle)) ∧
    ((∀ e ∈ (onEnd fails m (connect db)).2.issued, e.2 = true) →
      (onEnd fails m (connect db)).1 = LoadOutcome.inserted) := by
  have h := tryBlock_tryPost fails m db
  unfold onEnd
  unfold Session.TryPost at h
  cases hr : tryBlock fails m (connect db) with
  | mk r s1 =>
    rw [hr] at h
    cases r with
    | ok u =>
      simp only [Session.release, true_and]
      refine ⟨?_, fun _ => trivial⟩
      rintro ⟨e, he, hfalse⟩
      have := h e he
      rw [this] at hfalse
      exact absurd hfalse (by decide)
    | error err =>
      obtain ⟨hcommitted, e0, he0, hfalse0⟩ := h
      obtain ⟨hq1, ⟨ok, hq2⟩, hq3⟩ := query_rollback fails s1
      cases hq : s1.query fails Command.rollback with
      | mk r2 s2 =>
        rw [hq] at hq1 hq2 hq3
        simp only at hq1 hq2 hq3 hcommitted he0
        simp only [hq]
        have hmem : e0 ∈ s2.issued := by
          rw [hq2]
          exact List.mem_append_left _ he0
        cases r2 with
        | ok u2 =>
          simp only [Session.release, true_and]
          refine ⟨fun _ => ⟨hq1.trans hcommitted, by simp, ⟨ok, by simp [hq2]⟩, ?_⟩, ?_⟩
          · intro err2 _
            exact hq3 u2 rfl
          · intro hall
            have := hall e0 hmem
            rw [this] at hfalse0
            exact absurd hfalse0 (by decide)
        | error err2 =>
          simp only [Session.release, true_and]
          refine ⟨fun _ => ⟨hq1.trans hcommitted, by simp, ⟨ok, by simp [hq2]⟩, ?_⟩, ?_⟩
          · intro err3 h3
            exact absurd h3 (by simp)
          · intro hall
            have := hall e0 hmem
            rw [this] at hfalse0
            exact absurd hfalse0 (by decide)

theorem execAll_append (a b : List Stmt) (t : Tables) :
    execAll (a ++ b) t = execAll b (execAll a t) := by
  simp [execAll, List.foldl_append]

theorem forOf_noFailure {α : Type} (f : α → Stmt)
    (hf : ∀ x t, ∃ r, execStmt (f x) t = Except.ok r) (xs : List α) (s : Session) (w : Tables)
    (hw : s.tx = TxStatus.active w) :
    ∃ s1, forOf (fun x => awaitQuery noFailure (Command.stmt (f x))) xs s = (Except.ok (), s1) ∧
      s1.tx = TxStatus.active (execAll (xs.map f) w) ∧ s1.committed = s.committed := by
  induction xs generalizing s w with
  | nil => exact ⟨s, rfl, hw, rfl⟩
  | cons x rest ih =>
    obtain ⟨r, hr⟩ := hf x w
    have hstep : awaitQuery noFailure (Command.stmt (f x)) s =
        (Except.ok (), { s with tx := TxStatus.active r.2
                                issued := s.issued ++ [(Command.stmt (f x), true)] }) := by
      simp [awaitQuery, Session.query, noFailure, Session.accept, hw, hr]
    obtain ⟨s1, h1, h2, h3⟩ := ih
      { s with tx := TxStatus.active r.2, issued := s.issued ++ [(Command.stmt (f x), true)] }
      r.2 rfl
    refine ⟨s1, ?_, ?_, h3⟩
    · simp only [forOf, Step.andThen, hstep]
      exact h1
    · rw [h2]
      simp [execAll, hr]

/-- When the store rejects nothing the load is reported as inserted and commits
exactly the effect of its statements, in order. -/
theorem onEnd_noFailure (m : Maps) (db : Tables) :
    ∃ s, onEnd noFailure m (connect db) = (LoadOutcome.inserted, s) ∧
      s.committed = execAll (loadStmts m) db ∧ s.released = true := by
  have hb : awaitQuery noFailure Command.begin (connect db) =
      (Except.ok (), { committed := db, tx := TxStatus.active db
                       issued := [(Command.begin, true)], released := false }) := by
    simp [awaitQuery, Session.query, connect, noFailure, Session.accept]
  obtain ⟨s1, h1, t1, c1⟩ := forOf_noFailure
    (fun (c : Customer) => Stmt.insertCustomer c.id c.country)
    (by intro x t; simp only [execStmt]; split <;> exact ⟨_, rfl⟩)
    m.customers.values
    { committed := db, tx := TxStatus.active db, issued := [(Command.begin, true)]
      released := false } db rfl
  obtain ⟨s2, h2, t2, c2⟩ := forOf_noFailure
    (fun (p : Product) => Stmt.insertProductIfAbsent p.stock_code p.description p.unit_price)
    (by intro x t; simp only [execStmt]; split <;> exact ⟨_, rfl⟩)
    m.products.values s1 _ t1
  obtain ⟨s3, h3, t3, c3⟩ := forOf_noFailure
    (fun (i : Invoice) => Stmt.upsertInvoice i.invoice_no i.customer_id i.invoice_date i.items)
    (by intro x t; exact ⟨_, rfl⟩)
    m.invoices.values s2 _ t2
  have hc : awaitQuery noFailure Command.commit s3 =
      (Except.ok (), { s3 with committed := execAll (loadStmts m) db, tx := TxStatus.idle
                               issued := s3.issued ++ [(Command.commit, true)] }) := by
    simp [awaitQuery, Session.query, noFailure, Session.accept, t3, loadStmts, execAll_append]
  have htry : tryBlock noFailure m (connect db) =
      (Except.ok (), { s3 with committed := execAll (loadStmts m) db, tx := TxStatus.idle
                               issued := s3.issued ++ [(Command.commit, true)] }) := by
    simp only [tryBlock, Step.andThen, hb, h1, h2, h3, hc]
  refine ⟨Session.release
    { s3 with
      committed := execAll (loadStmts m) db, tx := TxStatus.idle,
      issued := s3.issued ++ [(Command.commit, true)] }, ?_, rfl, rfl⟩
  simp only [onEnd, htry]

/-! ## What a committed load leaves in the tables -/

theorem execAll_frame {β : Type} (g : Tables → β) (sts : List Stmt)
    (h : ∀ st ∈ sts, ∀ t r, execStmt st t = Except.ok r → g r.2 = g t) (t : Tables) :
    g (execAll sts t) = g t := by
  induction sts generalizing t with
  | nil => rfl
  | cons st rest ih =>
    have hrest : ∀ st1 ∈ rest, ∀ t r, execStmt st1 t = Except.ok r → g r.2 = g t :=
      fun st1 h1 => h st1 (List.mem_cons_of_mem _ h1)
    have hst := h st (List.mem_cons_self _ _) t
    show g (execAll rest _) = g t
    rw [ih hrest]
    cases hex : execStmt st t with
    | error e => simp only [hex]
    | ok r =>
      simp only [hex]
      exact hst r hex

theorem execAll_cons (st : Stmt) (rest : List Stmt) (t : Tables) :
    execAll (st :: rest) t =
      execAll rest (match execStmt st t with
        | Except.ok (_, t1) => t1
        | Except.error _ => t) := rfl

theorem execStmt_insertProductIfAbsent (p : Product) (t : Tables) :
    execStmt (Stmt.insertProductIfAbsent p.stock_code p.description p.unit_price) t =
      if t.products.any (fun q => decide (q.stock_code = p.stock_code)) then
        Except.ok ({ rows := [], rowCount := 0 }, t)
      else
        Except.ok ({ rows := [], rowCount := 1 }, { t with products := t.products ++ [p] }) := by
  cases p
  rfl

theorem execStmt_upsertInvoice (v : Invoice) (t : Tables) :
    execStmt (Stmt.upsertInvoice v.invoice_no v.customer_id v.invoice_date v.items) t =
      Except.ok ({ rows := [], rowCount := 1 },
        { t with invoices := upsertInvoiceRow v t.invoices }) := by
  cases v
  rfl

theorem find_upsertInvoiceRow (inv : Invoice) (l : List Invoice) (n c : String) :
    (upsertInvoiceRow inv l).find? (fun r => decide (r.invoice_no = n ∧ r.customer_id = c)) =
      if inv.invoice_no = n ∧ inv.customer_id = c then some inv
      else l.find? (fun r => decide (r.invoice_no = n ∧ r.customer_id = c)) := by
  induction l with
  | nil =>
    by_cases h : inv.invoice_no = n ∧ inv.customer_id = c
    · simp [upsertInvoiceRow, h]
    · simp [upsertInvoiceRow, h]
  | cons r rest ih =>
    by_cases hk : r.invoice_no = inv.invoice_no ∧ r.customer_id = inv.customer_id
    · have heq : ({ r with invoice_date := inv.invoice_date, items := inv.items } : Invoice) =
          inv := by
        cases inv; cases r
        simp only [Invoice.mk.injEq] at hk ⊢
        exact ⟨hk.1, hk.2, trivial, trivial⟩
      rw [upsertInvoiceRow, if_pos hk, heq]
      by_cases h : inv.invoice_no = n ∧ inv.customer_id = c
      · rw [if_pos h, List.find?_cons_of_pos]
        exact decide_eq_true h
      · have h2 : ¬ (r.invoice_no = n ∧ r.customer_id = c) := by
          rw [hk.1, hk.2]; exact h
        rw [if_neg h, List.find?_cons_of_neg, List.find?_cons_of_neg]
        · simpa using h2
        · simpa using h
    · simp only [upsertInvoiceRow, hk, if_false]
      by_cases hr : r.invoice_no = n ∧ r.customer_id = c
      · have h : ¬ (inv.invoice_no = n ∧ inv.customer_id = c) := by
          intro h
          exact hk ⟨hr.1.trans h.1.symm, hr.2.trans h.2.symm⟩
        simp [List.find?, hr, h]
      · simp only [List.find?, hr, decide_False, ih]

theorem find_upsert_fold (inv : Invoice) (vs : List Invoice) (t : Tables)
    (huniq : ∀ v ∈ vs, v.invoice_no = inv.invoice_no → v.customer_id = inv.customer_id → v = inv)
    (h : inv ∈ vs ∨ findInvoice t inv.invoice_no inv.customer_id = some inv) :
    findInvoice
      (execAll (vs.map (fun i =>
        Stmt.upsertInvoice i.invoice_no i.customer_id i.invoice_date i.items)) t)
      inv.invoice_no inv.customer_id = some inv := by
  induction vs generalizing t with
  | nil =>
    rcases h with h | h
    · simp at h
    · exact h
  | cons v rest ih =>
    have hrest : ∀ w ∈ rest, w.invoice_no = inv.invoice_no → w.customer_id = inv.customer_id →
        w = inv := fun w hw => huniq w (List.mem_cons_of_mem _ hw)
    have hstep : findInvoice
        { t with invoices := upsertInvoiceRow v t.invoices } inv.invoice_no inv.customer_id =
        if v.invoice_no = inv.invoice_no ∧ v.customer_id = inv.customer_id then some v
        else findInvoice t inv.invoice_no inv.customer_id := by
      simp only [findInvoice]
      exact find_upsertInvoiceRow v t.invoices _ _
    have key : inv ∈ rest ∨
        findInvoice { t with invoices := upsertInvoiceRow v t.invoices }
          inv.invoice_no inv.customer_id = some inv := by
      by_cases hv : v.invoice_no = inv.invoice_no ∧ v.customer_id = inv.customer_id
      · right
        rw [hstep, if_pos hv, huniq v (List.mem_cons_self _ _) hv.1 hv.2]
      · rcases h with h | h
        · simp only [List.mem_cons] at h
          rcases h with h | h
          · subst h
            exact absurd ⟨rfl, rfl⟩ hv
          · left; exact h
        · right
          rw [hstep, if_neg hv]
          exact h
    have := ih { t with invoices := upsertInvoiceRow v t.invoices } hrest key
    rw [List.map_cons, execAll_cons, execStmt_upsertInvoice]
    exact this

theorem any_stock_iff (l : List Product) (sc : String) :
    l.any (fun p => decide (p.stock_code = sc)) = true ↔
      ∃ q, l.find? (fun p => decide (p.stock_code = sc)) = some q := by
  rw [← Option.isSome_iff_exists, List.find?_isSome]
  simp [List.any_eq_true]

theorem find_insertIfAbsent_fold (vs : List Product) (t : Tables) (sc : String) :
    findProduct
      (execAll (vs.map (fun p =>
        Stmt.insertProductIfAbsent p.stock_code p.description p.unit_price)) t) sc =
      match findProduct t sc with
      | some q => some q
      | none => vs.find? (fun p => decide (p.stock_code = sc)) := by
  induction vs generalizing t with
  | nil => cases h : findProduct t sc <;> simp [execAll, h]
  | cons p rest ih =>
    have heta : ({ stock_code := p.stock_code, description := p.description
                   unit_price := p.unit_price } : Product) = p := by cases p; rfl
    by_cases hany : t.products.any (fun q => decide (q.stock_code = p.stock_code)) = true
    · have hexec : execAll (List.map (fun p =>
          Stmt.insertProductIfAbsent p.stock_code p.description p.unit_price) (p :: rest)) t =
          execAll (List.map (fun p =>
          Stmt.insertProductIfAbsent p.stock_code p.description p.unit_price) rest) t := by
        rw [List.map_cons, execAll_cons, execStmt_insertProductIfAbsent, if_pos hany]
      rw [hexec, ih t]
      cases h : findProduct t sc with
      | some q => rfl
      | none =>
        have hne : ¬ p.stock_code = sc := by
          intro he
          rw [he] at hany
          obtain ⟨q, hq⟩ := (any_stock_iff _ _).mp hany
          simp only [findProduct] at h
          rw [h] at hq
          exact absurd hq (by simp)
        simp [List.find?, hne]
    · have hexec : execAll (List.map (fun p =>
          Stmt.insertProductIfAbsent p.stock_code p.description p.unit_price) (p :: rest)) t =
          execAll (List.map (fun p =>
          Stmt.insertProductIfAbsent p.stock_code p.description p.unit_price) rest)
            { t with products := t.products ++ [p] } := by
        rw [List.map_cons, execAll_cons, execStmt_insertProductIfAbsent, if_neg hany]
      rw [hexec, ih]
      have hfind : findProduct { t with products := t.products ++ [p] } sc =
          match findProduct t sc with
          | some q => some q
          | none => if p.stock_code = sc then some p else none := by
        simp only [findProduct, List.find?_append]
        cases h : List.find? (fun p => decide (p.stock_code = sc)) t.products with
        | some q => rfl
        | none =>
          by_cases hp : p.stock_code = sc
          · simp [List.find?, hp]
          · simp [List.find?, hp]
      rw [hfind]
      cases h : findProduct t sc with
      | some q => rfl
      | none =>
        by_cases hp : p.stock_code = sc
        · simp [List.find?, hp]
        · simp [List.find?, hp]

theorem values_find_product (m : JSMap Product) (sc : String)
    (h : ∀ e ∈ m.entries, e.2.stock_code = e.1) :
    m.values.find? (fun p => decide (p.stock_code = sc)) = m.get sc := by
  induction m with
  | nil => rfl
  | cons e rest ih =>
    obtain ⟨k, v⟩ := e
    have hk : v.stock_code = k := h (k, v) (by simp [JSMap.entries])
    have hrest : ∀ e ∈ JSMap.entries rest, e.2.stock_code = e.1 := by
      intro e he
      apply h
      simp only [JSMap.entries, List.mem_cons]
      right; exact he
    have ih1 := ih hrest
    simp only [JSMap.values] at ih1
    by_cases hsc : k = sc
    · simp [JSMap.values, JSMap.get, List.find?, hk, hsc]
    · simp [JSMap.values, JSMap.get, List.find?, hk, hsc, ih1]

theorem frame_products_insertCustomer (vs : List Customer) (t : Tables) :
    (execAll (vs.map (fun c => Stmt.insertCustomer c.id c.country)) t).products = t.products := by
  apply execAll_frame (fun t => t.products)
  intro st hst t r hr
  obtain ⟨c, _, rfl⟩ := List.mem_map.mp hst
  simp only [execStmt] at hr
  split at hr <;> (cases hr; rfl)

theorem frame_products_upsertInvoice (vs : List Invoice) (t : Tables) :
    (execAll (vs.map (fun i =>
      Stmt.upsertInvoice i.invoice_no i.customer_id i.invoice_date i.items)) t).products =
      t.products := by
  apply execAll_frame (fun t => t.products)
  intro st hst t r hr
  obtain ⟨c, _, rfl⟩ := List.mem_map.mp hst
  simp only [execStmt] at hr
  cases hr; rfl

/-- The product a committed load leaves under a stock code: the one the store
already had, otherwise the one of the `products` map. -/
theorem committed_findProduct (m : Maps) (hk : m.Keyed) (db : Tables) (sc : String) :
    findProduct (execAll (loadStmts m) db) sc =
      match findProduct db sc with
      | some q => some q
      | none => m.products.get sc := by
  have h1 : findProduct (execAll (loadStmts m) db) sc =
      findProduct (execAll (m.products.values.map (fun p =>
        Stmt.insertProductIfAbsent p.stock_code p.description p.unit_price))
        (execAll (m.customers.values.map (fun c => Stmt.insertCustomer c.id c.country)) db))
        sc := by
    simp only [loadStmts, execAll_append, findProduct, frame_products_upsertInvoice]
  have h2 : findProduct
      (execAll (m.customers.values.map (fun c => Stmt.insertCustomer c.id c.country)) db) sc =
      findProduct db sc := by
    simp only [findProduct, frame_products_insertCustomer]
  rw [h1, find_insertIfAbsent_fold, h2, values_find_product _ _ hk.2.2.1]

/-- The invoice row a committed load leaves under the identity of a record of the
`invoices` map is that record. -/
theorem committed_findInvoice (m : Maps) (hk : m.Keyed) (db : Tables) (n : String)
    (inv : Invoice) (h : m.invoices.get n = some inv) :
    findInvoice (execAll (loadStmts m) db) n inv.customer_id = some inv := by
  have hn : inv.invoice_no = n := hk.2.1 _ (JSMap.mem_of_get h)
  have hmem : inv ∈ m.invoices.values := JSMap.mem_values_iff.mpr ⟨n, JSMap.mem_of_get h⟩
  have huniq : ∀ v ∈ m.invoices.values, v.invoice_no = inv.invoice_no →
      v.customer_id = inv.customer_id → v = inv := by
    intro v hv hvn _
    obtain ⟨k, hkv⟩ := JSMap.mem_values_iff.mp hv
    have hvk : v.invoice_no = k := hk.2.1 _ hkv
    have hkn : k = n := by rw [← hvk, hvn, hn]
    subst hkn
    have := JSMap.get_of_mem hk.1 hkv
    rw [h] at this
    exact (Option.some.inj this).symm
  have := find_upsert_fold inv m.invoices.values
    (execAll (m.products.values.map (fun p =>
        Stmt.insertProductIfAbsent p.stock_code p.description p.unit_price))
        (execAll (m.customers.values.map (fun c => Stmt.insertCustomer c.id c.country)) db))
    huniq (Or.inl hmem)
  rw [hn] at this
  simpa only [loadStmts, execAll_append] using this

/-! ## The claims about the normalizer and the load -/

theorem runEtl_noFailure (env : Builtins) (rows : List Row) (db : Tables) :
    ∃ s, runEtl env noFailure rows db = Except.ok (LoadOutcome.inserted, s) ∧
      s.committed = execAll (loadStmts (rows.foldl (applyRow env) Maps.empty)) db := by
  obtain ⟨s, h1, h2, _⟩ := onEnd_noFailure (rows.foldl (applyRow env) Maps.empty) db
  exact ⟨s, by simp only [runEtl, processRows_eq_foldl, h1], h2⟩

/-- C1 (as stated) fails: of two rows numbered 536365 the second has an empty
CustomerID and is dropped, so the invoice stored under 536365, in the map and in
the store after a committed load, holds one item, while the concatenation over
every row numbered 536365 has two. -/
theorem invoice_items_omit_dropped_rows :
    (processRows Sample.node [Example.heartRow, Example.lanternNoCustomer]).map
        (fun m => (m.invoices.get "536365").map Invoice.items) =
      Except.ok (some [Example.heartItem]) ∧
    (runEtl Sample.node noFailure [Example.heartRow, Example.lanternNoCustomer]
        Example.emptyStore).map
        (fun r => (findInvoice r.2.committed "536365" "17850").map Invoice.items) =
      Except.ok (some [Example.heartItem]) ∧
    ([Example.heartRow, Example.lanternNoCustomer].filter
        (fun r => decide (r.InvoiceNo = some "536365"))).map (lineItem Sample.node) =
      [Example.heartItem, Example.lanternItem] := by
  decide!

/-- C1 (amended): after any run, an invoice is stored under `n` exactly when some
row numbered `n` passes the drop rule, and then its items are, in row order, the
line items of the rows numbered `n` that pass the drop rule; a load that the store
does not reject commits that very record under `(n, customer_id)`. -/
theorem invoice_items_concat (env : Builtins) (rows : List Row) (db : Tables) (n : String) :
    ∃ m s, processRows env rows = Except.ok m ∧
      runEtl env noFailure rows db = Except.ok (LoadOutcome.inserted, s) ∧
      (m.invoices.get n).isSome = rows.any (keptFor n) ∧
      ∀ inv, m.invoices.get n = some inv →
        inv.items = (rows.filter (keptFor n)).map (lineItem env) ∧
        findInvoice s.committed n inv.customer_id = some inv := by
  obtain ⟨s, hs, hc⟩ := runEtl_noFailure env rows db
  refine ⟨_, s, processRows_eq_foldl env rows, hs, ?_, ?_⟩
  · rw [invoices_get_processRows]
    cases h : rows.find? (keptFor n) with
    | none =>
      simp only [Option.map_none', Option.isSome_none]
      rw [eq_comm, Bool.eq_false_iff]
      intro hany
      obtain ⟨r, hr, hk⟩ := List.any_eq_true.mp hany
      exact absurd hk (by simpa using List.find?_eq_none.mp h r hr)
    | some r =>
      simp only [Option.map_some', Option.isSome_some]
      exact (List.any_eq_true.mpr ⟨r, List.mem_of_find?_eq_some h, List.find?_some h⟩).symm
  · intro inv hinv
    refine ⟨?_, ?_⟩
    · rw [invoices_get_processRows] at hinv
      cases h : rows.find? (keptFor n) with
      | none => simp [h] at hinv
      | some r =>
        simp only [h, Option.map_some', Option.some.injEq] at hinv
        rw [← hinv]
    · rw [hc]
      exact committed_findInvoice _ (keyed_foldl env rows _ keyed_empty) db n inv hinv

/-- C2 (as stated) fails: the first-encountered row with stock code 85123A has
an empty InvoiceNo and is dropped, so the product recorded for 85123A, in the map
and in the store after a committed load, carries the description and price of the
second row, not those of the first-encountered one. -/
theorem product_ignores_dropped_first_row :
    (processRows Sample.node [Example.heartNoInvoice, Example.heartRow]).map
        (fun m => m.products.get "85123A") =
      Except.ok (some { stock_code := "85123A"
                        description := some "WHITE HANGING HEART T-LIGHT HOLDER"
                        unit_price := JSNum.fin (51 / 20) }) ∧
    (runEtl Sample.node noFailure [Example.heartNoInvoice, Example.heartRow]
        Example.emptyStore).map (fun r => findProduct r.2.committed "85123A") =
      Except.ok (some { stock_code := "85123A"
                        description := some "WHITE HANGING HEART T-LIGHT HOLDER"
                        unit_price := JSNum.fin (51 / 20) }) ∧
    ([Example.heartNoInvoice, Example.heartRow].find?
        (fun r => decide (r.StockCode = some "85123A"))).map (productOf Sample.node) =
      some { stock_code := "85123A"
             description := some "CREAM HANGING HEART T-LIGHT HOLDER"
             unit_price := JSNum.fin (999 / 100) } := by
  decide!

/-- C2 (amended): after any run, the product recorded under a stock code in the
map carries the description and price of the first row with that stock code that
passes the drop rule, whatever rows follow; after a load that the store does not
reject, the store holds for that stock code the product it already had, if any,
and otherwise the one of the map. -/
theorem product_first_kept_row (env : Builtins) (rows : List Row) (db : Tables)
    (sc : String) :
    ∃ m s, processRows env rows = Except.ok m ∧
      runEtl env noFailure rows db = Except.ok (LoadOutcome.inserted, s) ∧
      m.products.get sc = (rows.find? (keptStock sc)).map (productOf env) ∧
      findProduct s.committed sc =
        match findProduct db sc with
        | some q => some q
        | none => (rows.find? (keptStock sc)).map (productOf env) := by
  obtain ⟨s, hs, hc⟩ := runEtl_noFailure env rows db
  refine ⟨_, s, processRows_eq_foldl env rows, hs, products_get_processRows env rows sc, ?_⟩
  rw [hc, committed_findProduct _ (keyed_foldl env rows _ keyed_empty),
    products_get_processRows]

/-- C3: a row whose InvoiceNo, CustomerID or StockCode is missing or empty leaves
the three maps exactly as they were, and the handler does not throw. -/
theorem onData_dropped_row (env : Builtins) (m : Maps) (row : Row)
    (h : row.InvoiceNo = none ∨ row.InvoiceNo = some "" ∨
         row.CustomerID = none ∨ row.CustomerID = some "" ∨
         row.StockCode = none ∨ row.StockCode = some "") :
    onData env m row = Except.ok m := by
  have hd : dropped row = true := by
    unfold dropped
    rcases h with h | h | h | h | h | h <;> simp [h, cell, JVal.truthy]
  simp [onData, hd]

/-- C3, at a row without StockCode column processed on non-empty maps. -/
theorem onData_dropped_row_witness :
    (Example.noStockCode.InvoiceNo = none ∨ Example.noStockCode.InvoiceNo = some "" ∨
      Example.noStockCode.CustomerID = none ∨ Example.noStockCode.CustomerID = some "" ∨
      Example.noStockCode.StockCode = none ∨ Example.noStockCode.StockCode = some "") ∧
    onData Sample.node Example.heartMaps Example.noStockCode = Except.ok Example.heartMaps :=
  ⟨by decide, onData_dropped_row Sample.node Example.heartMaps Example.noStockCode (by decide)⟩

/-- C10: starting from the empty maps, after any sequence of rows every invoice of
the `invoices` map names a customer that is a key of `customers`, and every line
item of every invoice names a product that is a key of `products`. -/
theorem processRows_referential (env : Builtins) (rows : List Row) :
    ∃ m, processRows env rows = Except.ok m ∧
      ∀ inv ∈ m.invoices.values,
        inv.customer_id ∈ m.customers.keys ∧
        ∀ item ∈ inv.items, item.product_id ∈ m.products.keys :=
  ⟨_, processRows_eq_foldl env rows, referential_foldl env rows _ referential_empty⟩

/-- The record of a row that passes the drop rule, after the run it belongs to. -/
theorem invoice_of_kept_row (env : Builtins) (rows : List Row) (row : Row)
    (hmem : row ∈ rows) (hkept : dropped row = false) :
    ∃ first, rows.find? (keptFor (keyOf row.InvoiceNo)) = some first ∧
      (rows.foldl (applyRow env) Maps.empty).invoices.get (keyOf row.InvoiceNo) =
        some { invoice_no := keyOf row.InvoiceNo, customer_id := keyOf first.CustomerID
               invoice_date := rowDate env first
               items := (rows.filter (keptFor (keyOf row.InvoiceNo))).map (lineItem env) } ∧
      lineItem env row ∈ (rows.filter (keptFor (keyOf row.InvoiceNo))).map (lineItem env) := by
  have hk : keptFor (keyOf row.InvoiceNo) row = true := by simp [keptFor, hkept]
  cases h : rows.find? (keptFor (keyOf row.InvoiceNo)) with
  | none => exact absurd hk (by simpa using List.find?_eq_none.mp h row hmem)
  | some first =>
    refine ⟨first, rfl, ?_, ?_⟩
    · rw [invoices_get_processRows, h]
      rfl
    · exact List.mem_map.mpr ⟨row, List.mem_filter.mpr ⟨hmem, hk⟩, rfl⟩

theorem rowDate_of_invalid (env : Builtins) (row : Row)
    (h : isValidDate env row.InvoiceDate = false) : rowDate env row = some 0 := by
  simp [rowDate, h, newDate, env.dateParse_epoch]

/-- C7 (as stated) fails: the second row of invoice 536365 passes the drop rule
and its InvoiceDate does not parse, yet the invoice_date stored for 536365, in the
map and in the store after a committed load, is 2010-12-01 (the date of the first
row), not 1970-01-01 (time value 0). -/
theorem invoice_date_of_later_bad_row :
    dropped Example.lanternBadDate = false ∧
    isValidDate Sample.node Example.lanternBadDate.InvoiceDate = false ∧
    (processRows Sample.node [Example.heartRow, Example.lanternBadDate]).map
        (fun m => (m.invoices.get "536365").map Invoice.invoice_date) =
      Except.ok (some (some 1291161600000)) ∧
    (runEtl Sample.node noFailure [Example.heartRow, Example.lanternBadDate]
        Example.emptyStore).map
        (fun r => (findInvoice r.2.committed "536365" "17850").map Invoice.invoice_date) =
      Except.ok (some (some 1291161600000)) := by
  decide!

/-- C7 (amended): a row that passes the drop rule and whose InvoiceDate does not
parse is still ingested (its line item is in the invoice stored under its number,
in the map and in the store after a load the store does not reject); the
invoice_date stored is the one computed for the first row of that number that
passes the drop rule, hence 1970-01-01 when the unparseable row is that first row. -/
theorem unparseable_date_row (env : Builtins) (rows : List Row) (db : Tables) (row : Row)
    (hmem : row ∈ rows) (hkept : dropped row = false)
    (hbad : isValidDate env row.InvoiceDate = false) :
    ∃ m s inv, processRows env rows = Except.ok m ∧
      runEtl env noFailure rows db = Except.ok (LoadOutcome.inserted, s) ∧
      m.invoices.get (keyOf row.InvoiceNo) = some inv ∧
      lineItem env row ∈ inv.items ∧
      findInvoice s.committed (keyOf row.InvoiceNo) inv.customer_id = some inv ∧
      (∀ first, rows.find? (keptFor (keyOf row.InvoiceNo)) = some first →
        inv.invoice_date = rowDate env first) ∧
      (rows.find? (keptFor (keyOf row.InvoiceNo)) = some row → inv.invoice_date = some 0) := by
  obtain ⟨s, hs, hc⟩ := runEtl_noFailure env rows db
  obtain ⟨first, hfirst, hget, hitem⟩ := invoice_of_kept_row env rows row hmem hkept
  refine ⟨_, s, _, processRows_eq_foldl env rows, hs, hget, hitem, ?_, ?_, ?_⟩
  · rw [hc]
    exact committed_findInvoice _ (keyed_foldl env rows _ keyed_empty) db _ _ hget
  · intro f hf
    rw [hfirst] at hf
    cases hf
    rfl
  · intro hf
    rw [hfirst] at hf
    cases hf
    exact rowDate_of_invalid env row hbad

/-- C7 (amended), at a run whose first row of invoice 536365 has the date `not-a-date`. -/
theorem unparseable_date_row_witness :
    (Example.lanternBadDate ∈ [Example.lanternBadDate, Example.heartRow] ∧
      dropped Example.lanternBadDate = false ∧
      isValidDate Sample.node Example.lanternBadDate.InvoiceDate = false) ∧
    ∃ m s inv,
      processRows Sample.node [Example.lanternBadDate, Example.heartRow] = Except.ok m ∧
      runEtl Sample.node noFailure [Example.lanternBadDate, Example.heartRow]
        Example.emptyStore = Except.ok (LoadOutcome.inserted, s) ∧
      m.invoices.get (keyOf Example.lanternBadDate.InvoiceNo) = some inv ∧
      lineItem Sample.node Example.lanternBadDate ∈ inv.items ∧
      findInvoice s.committed (keyOf Example.lanternBadDate.InvoiceNo) inv.customer_id =
        some inv ∧
      (∀ first, [Example.lanternBadDate, Example.heartRow].find?
          (keptFor (keyOf Example.lanternBadDate.InvoiceNo)) = some first →
        inv.invoice_date = rowDate Sample.node first) ∧
      ([Example.lanternBadDate, Example.heartRow].find?
          (keptFor (keyOf Example.lanternBadDate.InvoiceNo)) = some Example.lanternBadDate →
        inv.invoice_date = some 0) :=
  ⟨by decide, unparseable_date_row Sample.node [Example.lanternBadDate, Example.heartRow]
    Example.emptyStore Example.lanternBadDate (by decide) (by decide) (by decide)⟩

/-- C8 (as stated) fails: two rows of invoice 536365 name different customers,
both pass the drop rule, and both line items end up in one record whose
customer_id is that of the first row; the load commits that single record. -/
theorem invoice_shared_across_customers :
    Example.heartRow.CustomerID ≠ Example.lanternOtherCustomer.CustomerID ∧
    dropped Example.heartRow = false ∧ dropped Example.lanternOtherCustomer = false ∧
    (processRows Sample.node [Example.heartRow, Example.lanternOtherCustomer]).map
        (fun m => m.invoices.entries) =
      Except.ok [("536365",
        { invoice_no := "536365", customer_id := "17850"
          invoice_date := some 1291161600000
          items := [Example.heartItem, Example.lanternItem] })] ∧
    (runEtl Sample.node noFailure [Example.heartRow, Example.lanternOtherCustomer]
        Example.emptyStore).map (fun r => r.2.committed.invoices) =
      Except.ok [{ invoice_no := "536365", customer_id := "17850"
                   invoice_date := some 1291161600000
                   items := [Example.heartItem, Example.lanternItem] }] := by
  decide!

/-- Processing a row that passes the drop rule leaves every record filed under
another invoice number as it was. -/
theorem onData_other_records (env : Builtins) (m0 : Maps) (row : Row) (k : String)
    (hk : k ≠ keyOf row.InvoiceNo) :
    (onData env m0 row).map (fun m1 => m1.invoices.get k) = Except.ok (m0.invoices.get k) := by
  rw [onData_eq_applyRow]
  show Except.ok ((applyRow env m0 row).invoices.get k) = Except.ok (m0.invoices.get k)
  rw [invoices_get_applyRow]
  have hne : ¬ keyOf row.InvoiceNo = k := fun e => hk e.symm
  simp [keptFor, hne]

/-- C8 (amended): within a run the invoice record is identified by the invoice
number alone.  There is one record per invoice number, and the items of the record
under a number are exactly the line items of the rows with that number that pass
the drop rule, one per row and in row order, whatever their CustomerID; processing
a row changes no record filed under another number.  Hence two rows that pass the
drop rule contribute to the same record if and only if they agree on InvoiceNo,
and the customer_id of a record is the CustomerID of the first row of its number
that passes the drop rule. -/
theorem invoice_record_by_number (env : Builtins) (rows : List Row) (r1 r2 : Row)
    (h1 : r1 ∈ rows) (h2 : r2 ∈ rows)
    (k1 : dropped r1 = false) (k2 : dropped r2 = false) :
    ∃ m inv1 inv2 first1 first2, processRows env rows = Except.ok m ∧
      m.invoices.get (keyOf r1.InvoiceNo) = some inv1 ∧
      m.invoices.get (keyOf r2.InvoiceNo) = some inv2 ∧
      lineItem env r1 ∈ inv1.items ∧ lineItem env r2 ∈ inv2.items ∧
      (inv1 = inv2 ↔ keyOf r1.InvoiceNo = keyOf r2.InvoiceNo) ∧
      rows.find? (keptFor (keyOf r1.InvoiceNo)) = some first1 ∧
      inv1.customer_id = keyOf first1.CustomerID ∧
      rows.find? (keptFor (keyOf r2.InvoiceNo)) = some first2 ∧
      inv2.customer_id = keyOf first2.CustomerID ∧
      inv1.items = (rows.filter (keptFor (keyOf r1.InvoiceNo))).map (lineItem env) ∧
      inv2.items = (rows.filter (keptFor (keyOf r2.InvoiceNo))).map (lineItem env) ∧
      (r2 ∈ rows.filter (keptFor (keyOf r1.InvoiceNo)) ↔
        keyOf r1.InvoiceNo = keyOf r2.InvoiceNo) ∧
      (r1 ∈ rows.filter (keptFor (keyOf r2.InvoiceNo)) ↔
        keyOf r1.InvoiceNo = keyOf r2.InvoiceNo) ∧
      m.invoices.keys.Nodup ∧
      (∀ e ∈ m.invoices.entries, e.2.invoice_no = e.1) ∧
      (∀ n, m.invoices.get n =
        (rows.find? (keptFor n)).map (fun first =>
          { invoice_no := n, customer_id := keyOf first.CustomerID
            invoice_date := rowDate env first
            items := (rows.filter (keptFor n)).map (lineItem env) })) ∧
      (∀ (m0 : Maps) (row : Row) (k : String), k ≠ keyOf row.InvoiceNo →
        (onData env m0 row).map (fun m1 => m1.invoices.get k) =
          Except.ok (m0.invoices.get k)) := by
  obtain ⟨f1, hf1, hg1, hi1⟩ := invoice_of_kept_row env rows r1 h1 k1
  obtain ⟨f2, hf2, hg2, hi2⟩ := invoice_of_kept_row env rows r2 h2 k2
  have hkeyed := keyed_foldl env rows _ keyed_empty
  refine ⟨_, _, _, f1, f2, processRows_eq_foldl env rows, hg1, hg2, hi1, hi2, ?_,
    hf1, rfl, hf2, rfl, rfl, rfl, ?_, ?_, hkeyed.1, hkeyed.2.1,
    invoices_get_processRows env rows, onData_other_records env⟩
  · constructor
    · intro h
      exact congrArg Invoice.invoice_no h
    · intro h
      rw [h] at hf1 ⊢
      rw [hf2] at hf1
      cases hf1
      rfl
  · simp only [List.mem_filter, keptFor, k2, Bool.not_false, Bool.true_and,
      decide_eq_true_eq, h2, true_and]
    exact eq_comm
  · simp only [List.mem_filter, keptFor, k1, Bool.not_false, Bool.true_and,
      decide_eq_true_eq, h1, true_and]

/-- C8 (amended), at a run of three rows: two rows of invoice 536365 that name
different customers and one row of invoice 536366; the theorem is applied to the
first row of 536365 and the row of 536366. -/
theorem invoice_record_by_number_witness :
    (Example.heartRow ∈
        [Example.heartRow, Example.lanternOtherCustomer, Example.warmerRow] ∧
      Example.warmerRow ∈
        [Example.heartRow, Example.lanternOtherCustomer, Example.warmerRow] ∧
      dropped Example.heartRow = false ∧ dropped Example.warmerRow = false) ∧
    ∃ m inv1 inv2 first1 first2,
      processRows Sample.node
        [Example.heartRow, Example.lanternOtherCustomer, Example.warmerRow] = Except.ok m ∧
      m.invoices.get (keyOf Example.heartRow.InvoiceNo) = some inv1 ∧
      m.invoices.get (keyOf Example.warmerRow.InvoiceNo) = some inv2 ∧
      lineItem Sample.node Example.heartRow ∈ inv1.items ∧
      lineItem Sample.node Example.warmerRow ∈ inv2.items ∧
      (inv1 = inv2 ↔ keyOf Example.heartRow.InvoiceNo = keyOf Example.warmerRow.InvoiceNo) ∧
      [Example.heartRow, Example.lanternOtherCustomer, Example.warmerRow].find?
        (keptFor (keyOf Example.heartRow.InvoiceNo)) = some first1 ∧
      inv1.customer_id = keyOf first1.CustomerID ∧
      [Example.heartRow, Example.lanternOtherCustomer, Example.warmerRow].find?
        (keptFor (keyOf Example.warmerRow.InvoiceNo)) = some first2 ∧
      inv2.customer_id = keyOf first2.CustomerID ∧
      inv1.items =
        ([Example.heartRow, Example.lanternOtherCustomer, Example.warmerRow].filter
          (keptFor (keyOf Example.heartRow.InvoiceNo))).map (lineItem Sample.node) ∧
      inv2.items =
        ([Example.heartRow, Example.lanternOtherCustomer, Example.warmerRow].filter
          (keptFor (keyOf Example.warmerRow.InvoiceNo))).map (lineItem Sample.node) ∧
      (Example.warmerRow ∈
          [Example.heartRow, Example.lanternOtherCustomer, Example.warmerRow].filter
            (keptFor (keyOf Example.heartRow.InvoiceNo)) ↔
        keyOf Example.heartRow.InvoiceNo = keyOf Example.warmerRow.InvoiceNo) ∧
      (Example.heartRow ∈
          [Example.heartRow, Example.lanternOtherCustomer, Example.warmerRow].filter
            (keptFor (keyOf Example.warmerRow.InvoiceNo)) ↔
        keyOf Example.heartRow.InvoiceNo = keyOf Example.warmerRow.InvoiceNo) ∧
      m.invoices.keys.Nodup ∧
      (∀ e ∈ m.invoices.entries, e.2.invoice_no = e.1) ∧
      (∀ n, m.invoices.get n =
        ([Example.heartRow, Example.lanternOtherCustomer, Example.warmerRow].find?
          (keptFor n)).map (fun first =>
          { invoice_no := n, customer_id := keyOf first.CustomerID
            invoice_date := rowDate Sample.node first
            items :=
              ([Example.heartRow, Example.lanternOtherCustomer, Example.warmerRow].filter
                (keptFor n)).map (lineItem Sample.node) })) ∧
      (∀ (m0 : Maps) (row : Row) (k : String), k ≠ keyOf row.InvoiceNo →
        (onData Sample.node m0 row).map (fun m1 => m1.invoices.get k) =
          Except.ok (m0.invoices.get k)) :=
  ⟨by decide, invoice_record_by_number Sample.node
    [Example.heartRow, Example.lanternOtherCustomer, Example.warmerRow] Example.heartRow
    Example.warmerRow (by decide) (by decide) (by decide) (by decide)⟩

/-- The records of that run, evaluated: one record per invoice number, the one
under 536365 holding the items of both of its rows and no item of invoice 536366. -/
theorem invoice_records_of_three_rows :
    (processRows Sample.node
        [Example.heartRow, Example.lanternOtherCustomer, Example.warmerRow]).map
        (fun m => m.invoices.entries) =
      Except.ok
        [("536365",
          { invoice_no := "536365", customer_id := "17850"
            invoice_date := some 1291161600000
            items := [Example.heartItem, Example.lanternItem] }),
         ("536366",
          { invoice_no := "536366", customer_id := "17850"
            invoice_date := some 1291161600000
            items := [{ product_id := "22633", quantity := JSNum.fin 6
                        unit_price := JSNum.fin (37 / 20) }] })] := by
  decide!

/-- C9, at a load of one customer, one product and one invoice whose third
command (the product insert) is rejected. -/
theorem onEnd_atomic_witness :
    (∃ e ∈ (onEnd Example.thirdFails Example.heartMaps
        (connect Example.emptyStore)).2.issued, e.2 = false) ∧
    (onEnd Example.thirdFails Example.heartMaps (connect Example.emptyStore)).2.committed =
      Example.emptyStore ∧
    (onEnd Example.thirdFails Example.heartMaps (connect Example.emptyStore)).1 ≠
      LoadOutcome.inserted ∧
    (∃ ok, (onEnd Example.thirdFails Example.heartMaps
        (connect Example.emptyStore)).2.issued.getLast? = some (Command.rollback, ok)) ∧
    (∀ err, (onEnd Example.thirdFails Example.heartMaps (connect Example.emptyStore)).1 =
        LoadOutcome.rolledBack err →
      (onEnd Example.thirdFails Example.heartMaps (connect Example.emptyStore)).2.tx =
        TxStatus.idle) :=
  ⟨by decide!, (onEnd_atomic Example.thirdFails Example.heartMaps Example.emptyStore).2.1
    (by decide!)⟩

/-! ## The claims about the product handlers -/

/-- Whenever the validation test of `POST /products` holds, the handler answers 400,
sends no statement and leaves the store as it was. -/
theorem postProducts_rejected (env : Builtins) (fault : Bool) (db : Tables) (body : ReqBody)
    (h : body.stock_code.truthy = false ∨ body.description.truthy = false ∨
      isNaN env body.unit_price = true) :
    (postProducts env fault db body).status = 400 ∧
    (postProducts env fault db body).issued = [] ∧
    (postProducts env fault db body).store = db := by
  have hc : (!body.stock_code.truthy || !body.description.truthy ||
      isNaN env body.unit_price) = true := by
    rcases h with h | h | h <;> simp [h]
  simp [postProducts, hc]

/-- C4: a `POST /products` whose unit_price is the empty string (what the bundled
client sends for an empty price field) or `null` is not numeric, yet the handler
does not answer 400: it sends the INSERT with the price `NaN` and answers 201. -/
theorem postProducts_accepts_non_numeric_price :
    postProducts Sample.node false Example.emptyStore Example.widgetEmptyPrice =
      { status := 201, body := ResBody.message "Product added successfully!"
        store := { customers := []
                   products := [{ stock_code := "A1", description := some "Widget"
                                  unit_price := JSNum.nan }]
                   invoices := [] }
        issued := [Stmt.insertProduct (some "A1") (some "Widget") JSNum.nan] } ∧
    postProducts Sample.node false Example.emptyStore Example.widgetNullPrice =
      { status := 201, body := ResBody.message "Product added successfully!"
        store := { customers := []
                   products := [{ stock_code := "A1", description := some "Widget"
                                  unit_price := JSNum.nan }]
                   invoices := [] }
        issued := [Stmt.insertProduct (some "A1") (some "Widget") JSNum.nan] } := by
  decide!

/-- A created product read back: when `POST /products` answers 201 for string
stock code and description, the following `GET` answers 200 with that stock code,
that description and the price `parseFloat(unit_price)`. -/
theorem post_then_get (env : Builtins) (db : Tables) (body : ReqBody) (sc d : String)
    (hsc : body.stock_code = JVal.str sc) (hd : body.description = JVal.str d)
    (h : (postProducts env false db body).status = 201) :
    getProductByStockCode false (postProducts env false db body).store sc =
      { status := 200
        body := ResBody.product
          { stock_code := sc, description := some d
            unit_price := parseFloat env body.unit_price }
        store := (postProducts env false db body).store
        issued := [Stmt.selectProduct sc] } := by
  unfold postProducts at h ⊢
  by_cases hv : (!body.stock_code.truthy || !body.description.truthy ||
      isNaN env body.unit_price) = true
  · simp [hv] at h
  · simp only [hv, if_false, Bool.false_eq_true] at h ⊢
    simp only [hsc, hd, textParam, JVal.toStr, poolQuery, if_false, Bool.false_eq_true,
      execStmt] at h ⊢
    by_cases hany : db.products.any (fun p => decide (p.stock_code = sc)) = true
    · simp [hany] at h
    · simp only [hany, if_false, Bool.false_eq_true]
      have hnone : db.products.filter (fun p => decide (p.stock_code = sc)) = [] := by
        rw [List.filter_eq_nil_iff]
        intro p hp hpsc
        exact hany (List.any_eq_true.mpr ⟨p, hp, hpsc⟩)
      simp [getProductByStockCode, poolQuery, execStmt, List.filter_append, hnone]

/-- C5: `POST /products` with the empty string as unit_price answers 201, and the
`GET /products/A1` that follows answers 200 with the unit_price `NaN`, which is
not the number of the unit_price sent (the empty string converts to 0); the same
happens for `null`. -/
theorem post_then_get_non_numeric_price :
    (postProducts Sample.node false Example.emptyStore Example.widgetEmptyPrice).status = 201 ∧
    getProductByStockCode false
        (postProducts Sample.node false Example.emptyStore Example.widgetEmptyPrice).store "A1" =
      { status := 200
        body := ResBody.product
          { stock_code := "A1", description := some "Widget", unit_price := JSNum.nan }
        store := (postProducts Sample.node false Example.emptyStore
          Example.widgetEmptyPrice).store
        issued := [Stmt.selectProduct "A1"] } ∧
    Example.widgetEmptyPrice.unit_price.toNumber Sample.node = JSNum.fin 0 ∧
    (postProducts Sample.node false Example.emptyStore Example.widgetNullPrice).status = 201 ∧
    getProductByStockCode false
        (postProducts Sample.node false Example.emptyStore Example.widgetNullPrice).store "A1" =
      { status := 200
        body := ResBody.product
          { stock_code := "A1", description := some "Widget", unit_price := JSNum.nan }
        store := (postProducts Sample.node false Example.emptyStore
          Example.widgetNullPrice).store
        issued := [Stmt.selectProduct "A1"] } ∧
    Example.widgetNullPrice.unit_price.toNumber Sample.node = JSNum.fin 0 := by
  decide!

theorem filter_updated (l : List Product) (sc : String) (d : Option String) (x : JSNum)
    (h : l.filter (fun p => decide (p.stock_code = sc)) ≠ []) :
    ∃ tail, (l.map (fun p =>
        if p.stock_code = sc then { p with description := d, unit_price := x } else p)).filter
        (fun p => decide (p.stock_code = sc)) =
      { stock_code := sc, description := d, unit_price := x } :: tail := by
  induction l with
  | nil => exact absurd rfl h
  | cons p rest ih =>
    by_cases hp : p.stock_code = sc
    · refine ⟨(rest.map (fun p =>
        if p.stock_code = sc then { p with description := d, unit_price := x } else p)).filter
        (fun p => decide (p.stock_code = sc)), ?_⟩
      simp only [List.map_cons, hp, if_true]
      rw [List.filter_cons_of_pos (by simp)]
    · have hrest : rest.filter (fun p => decide (p.stock_code = sc)) ≠ [] := by
        intro he
        apply h
        rw [List.filter_cons_of_neg (by simpa using hp)]
        exact he
      obtain ⟨tail, ht⟩ := ih hrest
      refine ⟨tail, ?_⟩
      simp only [List.map_cons, hp, if_false]
      rw [List.filter_cons_of_neg (by simpa using hp)]
      exact ht

/-- An updated product read back: when `PUT /products/:stock_code` answers 200 for a
string description, the following `GET` answers 200 with the same stock code, that
description and the price `parseFloat(unit_price)`. -/
theorem put_then_get (env : Builtins) (db : Tables) (sc : String) (body : ReqBody)
    (d : String) (hd : body.description = JVal.str d)
    (h : (putProduct env false db sc body).status = 200) :
    getProductByStockCode false (putProduct env false db sc body).store sc =
      { status := 200
        body := ResBody.product
          { stock_code := sc, description := some d
            unit_price := parseFloat env body.unit_price }
        store := (putProduct env false db sc body).store
        issued := [Stmt.selectProduct sc] } := by
  unfold putProduct at h ⊢
  by_cases hv : (!body.description.truthy || isNaN env body.unit_price) = true
  · simp [hv] at h
  · simp only [hv, if_false, Bool.false_eq_true] at h ⊢
    simp only [hd, textParam, JVal.toStr, poolQuery, if_false, Bool.false_eq_true,
      execStmt] at h ⊢
    by_cases hcount : (db.products.filter (fun p => decide (p.stock_code = sc))).length = 0
    · simp [hcount] at h
    · simp only [hcount, if_false]
      have hne : db.products.filter (fun p => decide (p.stock_code = sc)) ≠ [] := by
        intro he
        exact hcount (by rw [he]; rfl)
      obtain ⟨tail, ht⟩ := filter_updated db.products sc (some d)
        (parseFloat env body.unit_price) hne
      simp only [getProductByStockCode, poolQuery, if_false, Bool.false_eq_true, execStmt, ht]

/-- With a body that passes validation and a store that answers, `PUT` on a stock
code no product has answers 404 and leaves the products as they were. -/
theorem put_not_found (env : Builtins) (db : Tables) (sc : String) (body : ReqBody)
    (hv : body.description.truthy = true) (hn : isNaN env body.unit_price = false)
    (h : db.products.filter (fun p => decide (p.stock_code = sc)) = []) :
    (putProduct env false db sc body).status = 404 ∧
    (putProduct env false db sc body).store.products = db.products := by
  have hmap : db.products.map (fun p =>
      if p.stock_code = sc then
        { p with description := textParam env body.description
                 unit_price := parseFloat env body.unit_price }
      else p) = db.products := by
    rw [List.filter_eq_nil_iff] at h
    conv_rhs => rw [← List.map_id db.products]
    apply List.map_congr_left
    intro p hp
    have := h p hp
    simp only [decide_eq_true_eq] at this
    simp [this]
  simp [putProduct, hv, hn, poolQuery, execStmt, h, hmap]

/-- C6: in a store that holds product A1, `PUT /products/A1` with the empty string
as unit_price passes validation and answers 200, and the `GET /products/A1` that
follows answers 200 with the unit_price `NaN` instead of a new price. -/
theorem put_then_get_non_numeric_price :
    (putProduct Sample.node false Example.widgetStore "A1" Example.updateEmptyPrice).status =
      200 ∧
    getProductByStockCode false
        (putProduct Sample.node false Example.widgetStore "A1"
          Example.updateEmptyPrice).store "A1" =
      { status := 200
        body := ResBody.product
          { stock_code := "A1", description := some "Widget v2", unit_price := JSNum.nan }
        store := (putProduct Sample.node false Example.widgetStore "A1"
          Example.updateEmptyPrice).store
        issued := [Stmt.selectProduct "A1"] } ∧
    Example.updateEmptyPrice.unit_price.toNumber Sample.node = JSNum.fin 0 := by
  decide!

/-- The scenarios of the specification with numeric prices: create, read back,
update, read back. -/
theorem scenario_create_update :
    (postProducts Sample.node false Example.emptyStore Example.widgetBody).status = 201 ∧
    (getProductByStockCode false
        (postProducts Sample.node false Example.emptyStore Example.widgetBody).store "A1").body =
      ResBody.product
        { stock_code := "A1", description := some "Widget"
          unit_price := JSNum.fin (999 / 100) } ∧
    (putProduct Sample.node false Example.widgetStore "A1" Example.updateBody).status = 200 ∧
    (getProductByStockCode false
        (putProduct Sample.node false Example.widgetStore "A1" Example.updateBody).store
        "A1").body =
      ResBody.product
        { stock_code := "A1", description := some "Widget v2"
          unit_price := JSNum.fin (25 / 2) } ∧
    (postProducts Sample.node false Example.emptyStore
        { stock_code := JVal.str "A1", description := JVal.undefined
          unit_price := JVal.undefined }).status = 400 := by
  decide!

end Retail
